import Mathlib

/-!
Verification of the pyiso ISO9660 library (pyiso.py) against its
natural-language specification.  Python byte strings are modelled as
`List (Fin 256)` or `String`, Python exceptions as `Except String`
or an `Option String` error component, and the mutable `PyIso` object
as an explicit state record threaded through each operation.
-/

namespace PyIso

/-- Decidable equality of `Except` results, so that concrete outcomes of
the embedded fallible operations can be settled by `decide`. -/
instance {ε α : Type _} [DecidableEq ε] [DecidableEq α] :
    DecidableEq (Except ε α) := fun a b =>
  match a, b with
  | .ok x, .ok y =>
    if h : x = y then isTrue (congrArg Except.ok h)
    else isFalse (fun hc => h (Except.ok.inj hc))
  | .ok _, .error _ => isFalse (fun hc => Except.noConfusion hc)
  | .error _, .ok _ => isFalse (fun hc => Except.noConfusion hc)
  | .error e, .error f =>
    if h : e = f then isTrue (congrArg Except.error h)
    else isFalse (fun hc => h (Except.error.inj hc))

/-- A byte, as stored in a Python byte string. -/
abbrev Byte := Fin 256

/-- `pad` from pyiso.py: generate a string of padding zeros taking
`data_size` up to the next multiple of `pad_size`. -/
def pad (data_size pad_size : Nat) : List Byte :=
  let padbytes := pad_size - data_size % pad_size
  if padbytes ≠ pad_size then List.replicate padbytes 0 else []

/-- `ceiling_div` from utils.py.  Modelled from the spec:
the utils module is not in the sources; the spec (section 4.J) uses it as
the mathematical ceiling of the division, which `Nat` division gives as
`(n + d - 1) / d`. -/
def ceiling_div (n d : Nat) : Nat := (n + d - 1) / d

/-- `swab_16bit` from utils.py.  Modelled from the spec: the utils module
is not in the sources; the spec (section 4.A) describes 7.2.3 numbers as a
16-bit value stored little-endian then big-endian, so the swab helper is
the 16-bit byte swap. -/
def swab_16bit (x : Nat) : Nat := (x % 256) * 256 + (x / 256 % 256)

/-- `swab_32bit` from utils.py.  Modelled from the spec: the utils module
is not in the sources; the spec (section 4.A) describes 7.3.3 numbers as a
32-bit value stored little-endian then big-endian, so the swab helper is
the 32-bit byte swap. -/
def swab_32bit (x : Nat) : Nat :=
  (x % 256) * 16777216 + (x / 256 % 256) * 65536 +
    (x / 65536 % 256) * 256 + (x / 16777216 % 256)

/-- Two raw bytes, as unpacked by a struct format `H` slot. -/
structure Byte2 where
  b0 : Byte
  b1 : Byte
deriving DecidableEq

/-- Four raw bytes, as unpacked by a struct format `L` slot. -/
structure Byte4 where
  b0 : Byte
  b1 : Byte
  b2 : Byte
  b3 : Byte
deriving DecidableEq

/-- Little-endian decoding of a 2-byte field (what `struct.unpack` with a
native little-endian `H` slot produces). -/
def Byte2.le (b : Byte2) : Nat := b.b0.val + 256 * b.b1.val

/-- Big-endian decoding of a 2-byte field. -/
def Byte2.be (b : Byte2) : Nat := b.b0.val * 256 + b.b1.val

/-- Little-endian decoding of a 4-byte field (what `struct.unpack` with a
native little-endian `L` slot produces). -/
def Byte4.le (b : Byte4) : Nat :=
  b.b0.val + 256 * b.b1.val + 65536 * b.b2.val + 16777216 * b.b3.val

/-- Big-endian decoding of a 4-byte field. -/
def Byte4.be (b : Byte4) : Nat :=
  b.b0.val * 16777216 + b.b1.val * 65536 + b.b2.val * 256 + b.b3.val

/-- The raw dual-endian numeric fields of a Primary Volume Descriptor, as
delivered by the single `struct.unpack` call in
`PrimaryVolumeDescriptor.parse` (space size and path table size are 7.3.3
fields with 4-byte halves, the others are 7.2.3 fields with 2-byte
halves). -/
structure PvdNumericFields where
  space_size_le : Byte4
  space_size_be : Byte4
  set_size_le : Byte2
  set_size_be : Byte2
  seqnum_le : Byte2
  seqnum_be : Byte2
  logical_block_size_le : Byte2
  logical_block_size_be : Byte2
  path_table_size_le : Byte4
  path_table_size_be : Byte4

/-- The values the parse stores when every dual-endian check passes. -/
structure PvdNumericValues where
  space_size : Nat
  set_size : Nat
  seqnum : Nat
  log_block_size : Nat
  path_tbl_size : Nat
deriving DecidableEq

/-- The dual-endian agreement checks of `PrimaryVolumeDescriptor.parse`
(pyiso.py lines 211-231): each little-endian half must equal the byte swap
of the raw (natively unpacked) big-endian half, and the checks run in
source order, failing fast with the source's message. -/
def pvdParseDualEndian (f : PvdNumericFields) : Except String PvdNumericValues :=
  if f.space_size_le.le ≠ swab_32bit f.space_size_be.le then
    .error "Little-endian and big-endian space size disagree"
  else if f.set_size_le.le ≠ swab_16bit f.set_size_be.le then
    .error "Little-endian and big-endian set size disagree"
  else if f.seqnum_le.le ≠ swab_16bit f.seqnum_be.le then
    .error "Little-endian and big-endian seqnum disagree"
  else if f.logical_block_size_le.le ≠ swab_16bit f.logical_block_size_be.le then
    .error "Little-endian and big-endian logical block size disagree"
  else if f.path_table_size_le.le ≠ swab_32bit f.path_table_size_be.le then
    .error "Little-endian and big-endian path table size disagree"
  else
    .ok { space_size := f.space_size_le.le
          set_size := f.set_size_le.le
          seqnum := f.seqnum_le.le
          log_block_size := f.logical_block_size_le.le
          path_tbl_size := f.path_table_size_le.le }

/-- A path table record, with the fields the parser compares.  Modelled
from the spec: the ptr module is not in the sources; section 4.E gives the
on-disk row as identifier length, extended-attribute length, directory
extent, parent directory number and identifier. -/
structure PathTableRecordM where
  len_di : Nat
  xattr_length : Nat
  extent_location : Nat
  parent_directory_num : Nat
  directory_identifier : String
deriving DecidableEq

/-- The ordering used by `bisect.insort_left` on path table records.
Modelled from the spec: section 4.E orders records by parent number and
then identifier. -/
def ptrLE (a b : PathTableRecordM) : Bool :=
  if a.parent_directory_num ≠ b.parent_directory_num then
    a.parent_directory_num < b.parent_directory_num
  else
    a.directory_identifier < b.directory_identifier

/-- `bisect.insort_left`: insert before the first element not strictly
smaller than the new one. -/
def insortLeft (x : PathTableRecordM) : List PathTableRecordM → List PathTableRecordM
  | [] => [x]
  | y :: ys => if ptrLE y x then y :: insortLeft x ys else x :: y :: ys

/-- The temporary sorted structure built by `_big_endian_path_table`:
every record parsed from the big-endian table is insort-ed into a list. -/
def collectBePathTable (parsed : List PathTableRecordM) : List PathTableRecordM :=
  parsed.foldl (fun acc p => insortLeft p acc) []

/-- `path_table_record_be_equal_to_le` from headervd.py.  Modelled from
the spec: the headervd module is not in the sources; section 4.E says the
big-endian rows are compared to the little-endian list field-by-field,
so the record at `index` of the little-endian list must exist and agree
with `be_record` on every field. -/
def path_table_record_be_equal_to_le (le_records : List PathTableRecordM)
    (index : Nat) (be_record : PathTableRecordM) : Bool :=
  match le_records.get? index with
  | some p => p == be_record
  | none => false

/-- The comparison loop from `PyIso.open` (pyiso.py lines 1979-1981),
written as a recursion over the enumerated big-endian list: every
collected big-endian record is compared against the little-endian record
at the same index; any disagreement raises. -/
def comparePathTablesFrom (le_records : List PathTableRecordM) (index : Nat) :
    List PathTableRecordM → Except String Unit
  | [] => .ok ()
  | p :: rest =>
    if ¬ path_table_record_be_equal_to_le le_records index p then
      .error "Little-endian and big-endian path table records do not agree"
    else
      comparePathTablesFrom le_records (index + 1) rest

/-- The whole big-endian versus little-endian comparison of `PyIso.open`. -/
def comparePathTables (le_records be_sorted : List PathTableRecordM) :
    Except String Unit :=
  comparePathTablesFrom le_records 0 be_sorted

/-! ### Filename validation (check_d1_characters, check_iso9660_filename) -/

/-- Python `str.split(sep)` for a one-character separator. -/
def pySplit (sep : Char) : List Char → List (List Char)
  | [] => [[]]
  | c :: rest =>
    if c = sep then [] :: pySplit sep rest
    else
      match pySplit sep rest with
      | r :: rs => (c :: r) :: rs
      | [] => [[c]]

/-- Python `sep.join(parts)` for a one-character separator. -/
def pyJoin (sep : Char) : List (List Char) → List Char
  | [] => []
  | [p] => p
  | p :: rest => p ++ sep :: pyJoin sep rest

/-- Python `path.split('/')` on a string, via the structural splitter. -/
def pySplitSlash (s : String) : List String :=
  (pySplit '/' s.data).map String.mk

/-- Whether a Python string starts with a slash (the `path[0] != '/'`
checks; an empty path raises there too, modelled as not starting with a
slash). -/
def pyStartsWithSlash (s : String) : Bool :=
  match s.data with
  | [] => false
  | c :: _ => c = '/'

/-- Python `'/'.join(parts)` on strings, via the structural joiner. -/
def pyJoinSlash (parts : List String) : String :=
  String.mk (pyJoin '/' (parts.map String.data))

/-- Python 2 `str.upper` on a byte string: only ASCII lower-case letters
are mapped. -/
def pyUpperChar (c : Char) : Char :=
  if 'a' ≤ c ∧ c ≤ 'z' then Char.ofNat (c.toNat - 32) else c

/-- Whether a character counts as whitespace for Python `int()`. -/
def pyIsSpace (c : Char) : Bool :=
  c = ' ' ∨ c = '\t' ∨ c = '\n' ∨ c = '\r' ∨ c = Char.ofNat 11 ∨ c = Char.ofNat 12

/-- Read a nonempty all-digit sequence as a natural number. -/
def pyDigits : List Char → Option Nat
  | [] => none
  | l =>
    if l.all Char.isDigit then
      some (l.foldl (fun acc c => acc * 10 + (c.toNat - 48)) 0)
    else none

/-- Python 2 `int(s)`: optional surrounding whitespace, an optional sign,
then one or more decimal digits; anything else raises `ValueError`,
modelled as `none`. -/
def pyInt (s : List Char) : Option Int :=
  let t := ((s.dropWhile pyIsSpace).reverse.dropWhile pyIsSpace).reverse
  match t with
  | '+' :: rest => (pyDigits rest).map Int.ofNat
  | '-' :: rest => (pyDigits rest).map (fun n => -(n : Int))
  | rest => (pyDigits rest).map Int.ofNat

/-- The d1-character list from `check_d1_characters` in pyiso.py. -/
def d1Characters : List Char :=
  ['A', 'B', 'C', 'D', 'E', 'F', 'G', 'H', 'I', 'J', 'K',
   'L', 'M', 'N', 'O', 'P', 'Q', 'R', 'S', 'T', 'U', 'V',
   'W', 'X', 'Y', 'Z', '0', '1', '2', '3', '4', '5', '6',
   '7', '8', '9', '_', '.', '-', '+', '(', ')', '~', '&',
   '!', '@', '$']

/-- The strict d-character set of the spec (section 4.B): upper-case
letters, digits and underscore, without the d1 punctuation. -/
def dCharacters : List Char :=
  ['A', 'B', 'C', 'D', 'E', 'F', 'G', 'H', 'I', 'J', 'K',
   'L', 'M', 'N', 'O', 'P', 'Q', 'R', 'S', 'T', 'U', 'V',
   'W', 'X', 'Y', 'Z', '0', '1', '2', '3', '4', '5', '6',
   '7', '8', '9', '_']

/-- `check_d1_characters` from pyiso.py: raise on the first character not
in the d1 list. -/
def check_d1_characters (name : List Char) : Except String Unit :=
  if name.all (fun c => d1Characters.contains c) then .ok ()
  else .error "not a valid ISO9660 filename (it contains invalid characters)"

/-- The tail of `check_iso9660_filename` once the name and extension are
split out (pyiso.py lines 1001-1025): one of them must be nonempty, the
interchange level 1 length bounds apply, and the upper-cased name and
extension must consist of d1 characters. -/
def check_name_extension (name extension : List Char)
    (interchange_level : Nat) : Except String Unit :=
  if name.length = 0 ∧ extension.length = 0 then
    .error "is not a valid ISO9660 filename (either the name or extension must be non-empty"
  else if interchange_level = 1 ∧ (name.length > 8 ∨ extension.length > 3) then
    .error "is not a valid ISO9660 filename at interchange level 1"
  else
    match check_d1_characters (name.map pyUpperChar) with
    | .error e => .error e
    | .ok () => check_d1_characters (extension.map pyUpperChar)

/-- `check_iso9660_filename` from pyiso.py: split off the `;version`,
validate the version when present, split name and extension on the last
dot, and run the name/extension checks. -/
def check_iso9660_filename (fullname : List Char) (interchange_level : Nat) :
    Except String Unit :=
  let namesplit := pySplit ';' fullname
  let versionCheck : Except String Unit :=
    if namesplit.length = 2 then
      match pyInt namesplit[1]! with
      | none => .error "invalid literal for int()"
      | some version =>
        if version < 1 ∨ version > 32767 then
          .error "has an invalid version number (must be between 1 and 32767"
        else .ok ()
    else if namesplit.length ≠ 1 then
      .error "contains multiple semicolons!"
    else .ok ()
  match versionCheck with
  | .error e => .error e
  | .ok () =>
    let name_plus_extension := namesplit[0]!
    let dotsplit := pySplit '.' name_plus_extension
    let name := if dotsplit.length = 1 then dotsplit[0]!
                else pyJoin '.' dotsplit.dropLast
    let extension := if dotsplit.length = 1 then ([] : List Char)
                     else dotsplit.getLast!
    check_name_extension name extension interchange_level

/-- `check_iso9660_directory` from pyiso.py (lines 1027-1063): a
directory identifier needs at least one character, is bounded by 8
characters at interchange level 1 and by 207 otherwise, and its
upper-cased form must consist of d1 characters. -/
def check_iso9660_directory (fullname : List Char) (interchange_level : Nat) :
    Except String Unit := do
  if fullname.length < 1 then
    throw "is not a valid ISO9660 directory name (the name must have at least 1 character long)"
  if interchange_level = 1 then
    if fullname.length > 8 then
      throw "is not a valid ISO9660 directory name at interchange level 1"
  else
    if fullname.length > 207 then
      throw "is not a valid ISO9660 directory name (it is longer than 31 characters)"
  check_d1_characters (fullname.map pyUpperChar)

/-! ### Spec-side filename acceptance predicates (claim C6) -/

/-- Split a list at its first semicolon: `some (before, after)` when a
semicolon occurs, `none` when none does. -/
def firstSemiSplit : List Char → Option (List Char × List Char)
  | [] => none
  | c :: rest =>
    if c = ';' then some ([], rest)
    else
      match firstSemiSplit rest with
      | some (b, a) => some (c :: b, a)
      | none => none

/-- Split a list at its last dot: `some (name, extension)` when a dot
occurs, `none` when none does. -/
def lastDotSplit : List Char → Option (List Char × List Char)
  | [] => none
  | c :: rest =>
    match lastDotSplit rest with
    | some (n, e) => some (c :: n, e)
    | none => if c = '.' then some ([], rest) else none

/-- Modelled from the spec: the spec's conditions on the name and
extension of a file identifier — one of them nonempty, the length bounds
at interchange level 1, and the d1-character condition on the upper-cased
parts at every level. -/
def spec_name_ext_ok (name ext : List Char) (interchange_level : Nat) : Bool :=
  !(name.isEmpty && ext.isEmpty) &&
  (!(decide (interchange_level = 1)) ||
    (decide (name.length ≤ 8) && decide (ext.length ≤ 3))) &&
  (name.map pyUpperChar).all (fun c => d1Characters.contains c) &&
  (ext.map pyUpperChar).all (fun c => d1Characters.contains c)

/-- Modelled from the spec: name and extension come from splitting the
identifier (version removed) at its last dot; with no dot everything is
the name. -/
def spec_npe_ok (npe : List Char) (interchange_level : Nat) : Bool :=
  match lastDotSplit npe with
  | some (n, e) => spec_name_ext_ok n e interchange_level
  | none => spec_name_ext_ok npe [] interchange_level

/-- Modelled from the spec: the full acceptance predicate for a file
identifier — at most one semicolon, a present version reads as a Python
integer between 1 and 32767, and the name/extension conditions. -/
def spec_filename_ok (fullname : List Char) (interchange_level : Nat) : Bool :=
  match firstSemiSplit fullname with
  | some (npe, ver) =>
    !(decide (';' ∈ ver)) &&
    (match pyInt ver with
     | some n => decide (1 ≤ n) && decide (n ≤ 32767)
     | none => false) &&
    spec_npe_ok npe interchange_level
  | none => spec_npe_ok fullname interchange_level

/-- The claim's name/extension conditions as stated: one of them
nonempty, and only at interchange level 1 the length bounds together with
the strict d-character condition on the parts as given. -/
def claim_name_ext_ok (name ext : List Char) (interchange_level : Nat) : Bool :=
  !(name.isEmpty && ext.isEmpty) &&
  (!(decide (interchange_level = 1)) ||
    (decide (name.length ≤ 8) && decide (ext.length ≤ 3) &&
     name.all (fun c => dCharacters.contains c) &&
     ext.all (fun c => dCharacters.contains c)))

/-- The claim's name/extension split, as in `spec_npe_ok`. -/
def claim_npe_ok (npe : List Char) (interchange_level : Nat) : Bool :=
  match lastDotSplit npe with
  | some (n, e) => claim_name_ext_ok n e interchange_level
  | none => claim_name_ext_ok npe [] interchange_level

/-- The claim's full acceptance predicate as stated: at most one
semicolon, a present version between 1 and 32767, one of name and
extension nonempty, and the level-1 bounds with d-characters. -/
def claim_filename_ok (fullname : List Char) (interchange_level : Nat) : Bool :=
  match firstSemiSplit fullname with
  | some (npe, ver) =>
    !(decide (';' ∈ ver)) &&
    (match pyInt ver with
     | some n => decide (1 ≤ n) && decide (n ≤ 32767)
     | none => false) &&
    claim_npe_ok npe interchange_level
  | none => claim_npe_ok fullname interchange_level

/-! ### Joliet SVD recognition and El Torito checks -/

/-- The Joliet test applied to each SVD in `PyIso.open` (pyiso.py line
1990): flag bit 0 clear and the first three escape-sequence bytes in the
literal list of the source, which reads `%/*`, `%/C`, `%/E`. -/
def isJolietSVD (flags : Nat) (escape_sequences : List Char) : Bool :=
  flags % 2 = 0 ∧
    (escape_sequences.take 3 ∈ [['%', '/', '*'], ['%', '/', 'C'], ['%', '/', 'E']])

/-- The SVD scan of `PyIso.open` (pyiso.py lines 1988-1994): pick the
Joliet SVD, raising when a second one satisfies the test. -/
def selectJolietSVD (svds : List (Nat × List Char)) :
    Except String (Option (Nat × List Char)) :=
  go none svds
where
  go (acc : Option (Nat × List Char)) :
      List (Nat × List Char) → Except String (Option (Nat × List Char))
  | [] => .ok acc
  | (flags, esc) :: rest =>
    if isJolietSVD flags esc then
      if acc.isSome then .error "Only a single Joliet SVD is supported"
      else go (some (flags, esc)) rest
    else go acc rest

/-- Python `"{:\x00<32}".format(s)`: pad with NUL bytes to width 32. -/
def padNul32 (s : List Char) : List Char :=
  s ++ List.replicate (32 - s.length) (Char.ofNat 0)

/-- The El Torito boot-system identifier the parser matches against. -/
def elToritoIdent : List Char := padNul32 "EL TORITO SPECIFICATION".data

/-- `PyIso._check_and_parse_eltorito` (pyiso.py lines 1543-1564), up to
the point where the catalog itself is read: a Boot Record whose
boot-system identifier is not the El Torito one is skipped (`ok false`);
otherwise the parse fails when a catalog was already parsed or when the
Boot Record does not sit at extent 17, and proceeds to parse the catalog
(`ok true`) otherwise. -/
def check_and_parse_eltorito (boot_system_identifier : List Char)
    (already_have_catalog : Bool) (extent_location : Nat) :
    Except String Bool :=
  if boot_system_identifier ≠ elToritoIdent then .ok false
  else if already_have_catalog then
    .error "Only one El Torito boot record is allowed"
  else if extent_location ≠ 17 then
    .error "El Torito Boot Record must be at extent 17"
  else .ok true

/-! ### The directory-record tree -/

/-- Rock Ridge data attached to a directory record.  Modelled from the
spec: the dr and rockridge modules are not in the sources; sections 3 and
4.C describe the NM name, the RE relocation mark, the CL child link with
its target block, the PL parent link, and the CE continuation entry with
its length. -/
structure RRInfo where
  name : String
  relocated : Bool
  hasChildLink : Bool
  childLinkExtent : Nat
  hasParentLink : Bool
  ceLength : Option Nat
deriving DecidableEq, Repr

/-- A directory record.  Modelled from the spec: the dr module is not in
the sources; section 3 gives the fields a record carries (identifier,
directory flag, data length, extent location, optional Rock Ridge data,
children list).  The original/pending extent pair is collapsed into the
single value the accessor would return. -/
inductive DirRecord where
  | mk (file_ident : String) (isdir : Bool) (data_length : Nat)
       (extent_location : Nat) (rock_ridge : Option RRInfo)
       (children : List DirRecord)

/-- The file identifier byte of a "." sentinel record. -/
def dotIdent : String := String.mk [Char.ofNat 0]

/-- The file identifier byte of a ".." sentinel record. -/
def dotdotIdent : String := String.mk [Char.ofNat 1]

def DirRecord.file_ident : DirRecord → String
  | .mk i _ _ _ _ _ => i

def DirRecord.isdir : DirRecord → Bool
  | .mk _ d _ _ _ _ => d

def DirRecord.data_length : DirRecord → Nat
  | .mk _ _ l _ _ _ => l

def DirRecord.extent_location : DirRecord → Nat
  | .mk _ _ _ e _ _ => e

def DirRecord.rock_ridge : DirRecord → Option RRInfo
  | .mk _ _ _ _ r _ => r

def DirRecord.children : DirRecord → List DirRecord
  | .mk _ _ _ _ _ c => c

/-- `is_dot`: the record is the "." sentinel. -/
def DirRecord.is_dot (d : DirRecord) : Bool := d.file_ident = dotIdent

/-- `is_dotdot`: the record is the ".." sentinel. -/
def DirRecord.is_dotdot (d : DirRecord) : Bool := d.file_ident = dotdotIdent

/-- `is_file`: directory records without the directory flag are files. -/
def DirRecord.is_file (d : DirRecord) : Bool := ¬ d.isdir

/-- Replace the children list of a record. -/
def DirRecord.setChildren : DirRecord → List DirRecord → DirRecord
  | .mk i d l e r _, cs => .mk i d l e r cs

/-- `file_length` of a record is its data length. -/
def DirRecord.file_length (d : DirRecord) : Nat := d.data_length

mutual

/-- The size of a directory-record tree, used as fuel for the
breadth-first walks. -/
def DirRecord.tsize : DirRecord → Nat
  | .mk _ _ _ _ _ cs => 1 + tsizeList cs

/-- The total size of a list of directory-record trees. -/
def tsizeList : List DirRecord → Nat
  | [] => 0
  | c :: cs => DirRecord.tsize c + tsizeList cs

end

/-! ### The extent allocator (reshuffle) -/

/-- One pass over the children of a directory during
`_reassign_vd_dirrecord_extents` (pyiso.py lines 1610-1647): "." and ".."
records receive their parent's extents (which does not advance the
counter), every other directory child is assigned the current extent and
advances it by its block count, and a Rock Ridge continuation entry is
packed into the running continuation extent, bumping to a fresh extent
when it would not fit.  Returns the new counter, the new continuation
state, the extents assigned to directory children in order, and the
directory children to enqueue. -/
def reassignChildren (lbs : Nat) :
    List DirRecord → Nat → Option Nat → Nat →
      Nat × Option Nat × Nat × List Nat × List DirRecord
  | [], cur, rrExt, rrOff => (cur, rrExt, rrOff, [], [])
  | child :: rest, cur, rrExt, rrOff =>
    if child.isdir ∧ (child.is_dot ∨ child.is_dotdot) then
      reassignChildren lbs rest cur rrExt rrOff
    else
      let step1 : Nat × List Nat × List DirRecord :=
        if child.isdir then
          (cur + ceiling_div child.data_length lbs, [cur], [child])
        else (cur, [], [])
      let cur1 := step1.1
      let step2 : Nat × Option Nat × Nat :=
        match child.rock_ridge with
        | some rr =>
          match rr.ceLength with
          | some ceLen =>
            match rrExt with
            | none => (cur1 + 1, some cur1, ceLen)
            | some e =>
              if (lbs : Int) - rrOff < ceLen then (cur1 + 1, some cur1, ceLen)
              else (cur1, some e, rrOff + ceLen)
          | none => (cur1, rrExt, rrOff)
        | none => (cur1, rrExt, rrOff)
      let next := reassignChildren lbs rest step2.1 step2.2.1 step2.2.2
      (next.1, next.2.1, next.2.2.1, step1.2.1 ++ next.2.2.2.1,
        step1.2.2 ++ next.2.2.2.2)

/-- The breadth-first directory walk of `_reassign_vd_dirrecord_extents`,
with an explicit fuel argument making the recursion structural: a FIFO
queue of directories, each popped directory has its children processed by
`reassignChildren`, and the discovered subdirectories are appended to the
queue.  Returns the final extent counter and the extents assigned to the
(non-root, non-sentinel) directories in BFS order. -/
def reassignLoopF (lbs : Nat) :
    Nat → List DirRecord → Nat → Option Nat → Nat → Nat × List Nat
  | 0, _, cur, _, _ => (cur, [])
  | _ + 1, [], cur, _, _ => (cur, [])
  | fuel + 1, d :: rest, cur, rrExt, rrOff =>
    let step := reassignChildren lbs d.children cur rrExt rrOff
    let next := reassignLoopF lbs fuel (rest ++ step.2.2.2.2) step.1
      step.2.1 step.2.2.1
    (next.1, step.2.2.2.1 ++ next.2)

/-- The BFS walk with its fuel set to the total size of the queue plus
one; every pop strictly shrinks the total size (the enqueued
subdirectories are a sublist of the popped directory's children,
`reassignChildren_subdirs_sublist`), so this fuel is never exhausted. -/
def reassignLoop (lbs : Nat) (queue : List DirRecord) (cur : Nat)
    (rrExt : Option Nat) (rrOff : Nat) : Nat × List Nat :=
  reassignLoopF lbs (tsizeList queue + 1) queue cur rrExt rrOff

/-- `_reassign_vd_dirrecord_extents` (pyiso.py lines 1581-1661): give the
root the current extent, advance by the root's block count, then walk the
tree breadth-first reassigning extents; the continuation-entry packing
state starts empty.  Returns the extent counter after the walk and the
assigned directory extents, root first, in BFS order.  The Rock Ridge
child-link and parent-link rewrites and the path-table extent updates do
not advance the counter and are not part of the summary. -/
def reassignVdDirrecordExtents (lbs : Nat) (root : DirRecord)
    (current : Nat) : Nat × List Nat :=
  let cur1 := current + ceiling_div root.data_length lbs
  let walk := reassignLoop lbs [root] cur1 none 0
  (walk.1, current :: walk.2)

/-- One pass over the children of a directory during the file-payload
phase of `_reshuffle_extents` (pyiso.py lines 1736-1752): directory
children are enqueued, the El Torito catalog and initial-entry records
are skipped, and every other file child is assigned the current extent,
advancing it by the file's block count.  The Python identity comparison
against the catalog records is modelled by comparing file identifiers. -/
def fileAssignChildren (lbs : Nat) (skipIdents : List String) :
    List DirRecord → Nat → Nat × List Nat × List DirRecord
  | [], cur => (cur, [], [])
  | child :: rest, cur =>
    if child.isdir then
      let next := fileAssignChildren lbs skipIdents rest cur
      if child.is_dot ∨ child.is_dotdot then next
      else (next.1, next.2.1, child :: next.2.2)
    else if skipIdents.contains child.file_ident then
      fileAssignChildren lbs skipIdents rest cur
    else
      let next := fileAssignChildren lbs skipIdents rest
        (cur + ceiling_div child.data_length lbs)
      (next.1, cur :: next.2.1, next.2.2)

/-- The breadth-first file-payload walk of `_reshuffle_extents`, with an
explicit fuel argument making the recursion structural. -/
def fileAssignLoopF (lbs : Nat) (skipIdents : List String) :
    Nat → List DirRecord → Nat → Nat × List Nat
  | 0, _, cur => (cur, [])
  | _ + 1, [], cur => (cur, [])
  | fuel + 1, d :: rest, cur =>
    let step := fileAssignChildren lbs skipIdents d.children cur
    let next := fileAssignLoopF lbs skipIdents fuel (rest ++ step.2.2) step.1
    (next.1, step.2.1 ++ next.2)

/-- The file-payload walk with its fuel set to the total size of the
queue plus one; every pop strictly shrinks the total size
(`fileAssignChildren_subdirs_sublist`), so this fuel is never
exhausted. -/
def fileAssignLoop (lbs : Nat) (skipIdents : List String)
    (queue : List DirRecord) (cur : Nat) : Nat × List Nat :=
  fileAssignLoopF lbs skipIdents (tsizeList queue + 1) queue cur

/-! ### Volume descriptors and the image state -/

/-- `PathTableRecord.record_length` from ptr.py.  Modelled from the spec:
the ptr module is not in the sources; section 4.E gives the on-disk row
as 1 + 1 + 4 + 2 bytes of fixed fields, the identifier, and a pad byte to
even length. -/
def PathTableRecord.record_length (len_di : Nat) : Nat :=
  8 + len_di + len_di % 2

/-- The numeric and structural fields of a `HeaderVolumeDescriptor` (the
shared base of the PVD and the SVD) that the allocator and the mutation
methods read and write. -/
structure HeaderVD where
  space_size : Nat
  set_size : Nat
  seqnum : Nat
  log_block_size : Nat
  path_tbl_size : Nat
  path_table_num_extents : Nat
  path_table_location_le : Nat
  path_table_location_be : Nat
  root : DirRecord
  path_table_records : List PathTableRecordM

/-- `add_to_space_size` from headervd.py.  Modelled from the spec: the
headervd module is not in the sources; section 4.F says mutation
operations adjust `space_size` incrementally, by the block count of the
added bytes. -/
def HeaderVD.add_to_space_size (vd : HeaderVD) (num_bytes : Nat) : HeaderVD :=
  { vd with space_size :=
      vd.space_size + ceiling_div num_bytes vd.log_block_size }

/-- `remove_from_space_size` from headervd.py.  Modelled from the spec,
as the inverse of `add_to_space_size`. -/
def HeaderVD.remove_from_space_size (vd : HeaderVD) (num_bytes : Nat) :
    HeaderVD :=
  { vd with space_size :=
      vd.space_size - ceiling_div num_bytes vd.log_block_size }

/-- `add_entry` from headervd.py.  Modelled from the spec: the headervd
module is not in the sources; sections 4.F and 4.L say an added entry
grows the space size by its block count and, for directories, grows the
path table size by the new record's length, recomputing the path table
extent count. -/
def HeaderVD.add_entry (vd : HeaderVD) (flen ptr_size : Nat) : HeaderVD :=
  let pts := vd.path_tbl_size + ptr_size
  { vd with
    space_size := vd.space_size + ceiling_div flen vd.log_block_size
    path_tbl_size := pts
    path_table_num_extents := ceiling_div pts 4096 * 2 }

/-- `remove_entry` from headervd.py.  Modelled from the spec, as the
inverse of `add_entry`. -/
def HeaderVD.remove_entry (vd : HeaderVD) (flen ptr_size : Nat) : HeaderVD :=
  let pts := vd.path_tbl_size - ptr_size
  { vd with
    space_size := vd.space_size - ceiling_div flen vd.log_block_size
    path_tbl_size := pts
    path_table_num_extents := ceiling_div pts 4096 * 2 }

/-- `add_path_table_record` from headervd.py.  Modelled from the spec:
section 4.E says the parser (and the mutation methods) maintain a sorted
sequence via order-preserving insertion. -/
def HeaderVD.add_path_table_record (vd : HeaderVD) (ptr : PathTableRecordM) :
    HeaderVD :=
  { vd with path_table_records := insortLeft ptr vd.path_table_records }

/-- `find_parent_dirnum` from headervd.py.  Modelled from the spec:
section 4.E numbers directories by their position in the path table,
the root being number 1. -/
def HeaderVD.find_parent_dirnum (vd : HeaderVD) (ident : String) : Nat :=
  (vd.path_table_records.findIdx
    (fun p => p.directory_identifier = ident)) + 1

/-- A Boot Record, reduced to the fields the claims touch: its
boot-system identifier and the catalog extent stored in the first four
bytes of its boot-system use area. -/
structure BootRecordM where
  boot_system_identifier : List Char
  catalog_extent : Nat
deriving DecidableEq

/-- The El Torito boot catalog object, reduced to the links and numbers
the allocator and the mutation methods use; the references to the
catalog's and the initial entry's directory records are modelled by their
file identifiers. -/
structure EltoritoM where
  catalog_ident : String
  initial_ident : String
  sector_count : Nat
deriving DecidableEq

/-- The isohybrid MBR object, reduced to the geometry that determines the
trailing padding. -/
structure IsoHybridM where
  geometry_sectors : Nat
  geometry_heads : Nat
deriving DecidableEq

/-- The summary of one `_reshuffle_extents` pass: the extents it assigns
to each piece of the image, in the source's assignment order. -/
structure ReshuffleResult where
  br_extents : List Nat
  svd_extents : List Nat
  vdst_extents : List Nat
  version_extent : Nat
  pvd_ptr_le : Nat
  pvd_ptr_be : Nat
  svd_ptrs : List (Nat × Nat)
  pvd_dir_extents : List Nat
  svd_dir_extents : List (List Nat)
  rr_er_extent : Option Nat
  eltorito_catalog_extent : Option Nat
  eltorito_initial_extent : Option Nat
  file_extents : List Nat

/-- The state of a `PyIso` object, as set up by `_initialize`, `new` and
`open` and read by every public method.  The Joliet volume descriptor is
an index into the SVD list (the source holds an aliasing reference);
`reshuffle_count` counts the `_reshuffle_extents` calls and
`last_reshuffle` holds the assignment the latest pass produced (the
source writes the assigned extents back into the records). -/
structure PyIsoState where
  initialized : Bool
  interchange_level : Nat
  pvd : HeaderVD
  svds : List HeaderVD
  joliet_vd : Option Nat
  brs : List BootRecordM
  num_vdsts : Nat
  eltorito_boot_catalog : Option EltoritoM
  rock_ridge : Bool
  isohybrid_mbr : Option IsoHybridM
  reshuffle_count : Nat
  last_reshuffle : Option ReshuffleResult

/-- `_reshuffle_extents` (pyiso.py lines 1663-1752): assign extents in the
fixed order PVD (fixed at 16), Boot Records, SVDs, VDSTs, version
descriptor, PVD path tables (little then big endian), SVD path tables,
PVD directory records (BFS), SVD directory records, the Rock Ridge ER
extent, the El Torito catalog and initial entry, and finally the file
payloads. -/
def reshuffle_extents (s : PyIsoState) : ReshuffleResult :=
  let cur0 := 16 + 1
  let brExts := (List.range s.brs.length).map (cur0 + ·)
  let cur1 := cur0 + s.brs.length
  let svdExts := (List.range s.svds.length).map (cur1 + ·)
  let cur2 := cur1 + s.svds.length
  let vdstExts := (List.range s.num_vdsts).map (cur2 + ·)
  let cur3 := cur2 + s.num_vdsts
  let versionExt := cur3
  let cur4 := cur3 + 1
  let pvdPtrLE := cur4
  let cur5 := cur4 + s.pvd.path_table_num_extents
  let pvdPtrBE := cur5
  let cur6 := cur5 + s.pvd.path_table_num_extents
  let svdPtrStep := s.svds.foldl
    (fun (acc : Nat × List (Nat × Nat)) svd =>
      (acc.1 + 2 * svd.path_table_num_extents,
        acc.2 ++ [(acc.1, acc.1 + svd.path_table_num_extents)]))
    (cur6, [])
  let cur7 := svdPtrStep.1
  let pvdDirs := reassignVdDirrecordExtents s.pvd.log_block_size
    s.pvd.root cur7
  let cur8 := pvdDirs.1
  let svdDirStep := s.svds.foldl
    (fun (acc : Nat × List (List Nat)) svd =>
      let step := reassignVdDirrecordExtents svd.log_block_size svd.root acc.1
      (step.1, acc.2 ++ [step.2]))
    (cur8, [])
  let cur9 := svdDirStep.1
  let erStep : Nat × Option Nat :=
    if s.rock_ridge then (cur9 + 1, some cur9) else (cur9, none)
  let cur10 := erStep.1
  let etStep : Nat × Option Nat × Option Nat × List String :=
    match s.eltorito_boot_catalog with
    | some cat =>
      (cur10 + 2, some cur10, some (cur10 + 1),
        [cat.catalog_ident, cat.initial_ident])
    | none => (cur10, none, none, [])
  let cur11 := etStep.1
  let files := fileAssignLoop s.pvd.log_block_size etStep.2.2.2
    [s.pvd.root] cur11
  { br_extents := brExts
    svd_extents := svdExts
    vdst_extents := vdstExts
    version_extent := versionExt
    pvd_ptr_le := pvdPtrLE
    pvd_ptr_be := pvdPtrBE
    svd_ptrs := svdPtrStep.2
    pvd_dir_extents := pvdDirs.2
    svd_dir_extents := svdDirStep.2
    rr_er_extent := erStep.2
    eltorito_catalog_extent := etStep.2.1
    eltorito_initial_extent := etStep.2.2.1
    file_extents := files.2 }

/-- Run the allocator and record its summary in the state, as every
mutation method does after changing the graph. -/
def doReshuffle (s : PyIsoState) : PyIsoState :=
  { s with
    reshuffle_count := s.reshuffle_count + 1
    last_reshuffle := some (reshuffle_extents s) }

/-! ### Constructors: new records, new descriptors, PyIso.new -/

/-- A fresh Rock Ridge info block with only a name. -/
def baseRR (rr_name : String) : RRInfo :=
  { name := rr_name, relocated := false, hasChildLink := false,
    childLinkExtent := 0, hasParentLink := false, ceLength := none }

/-- Sorted insertion of a non-sentinel child behind the sentinels.
Modelled from the spec: the dr module is not in the sources; section 4.D
keeps "." at index 0, ".." at index 1 and the other children in ascending
identifier order. -/
def insertChildSorted (c : DirRecord) : List DirRecord → List DirRecord
  | [] => [c]
  | x :: rest =>
    if x.is_dot ∨ x.is_dotdot then x :: insertChildSorted c rest
    else if x.file_ident < c.file_ident then x :: insertChildSorted c rest
    else c :: x :: rest

/-- `add_child` from dr.py.  Modelled from the spec (section 4.D): "." is
placed first, ".." after "." and every other child in sorted position.
The directory data-length growth on block overflow is not modelled; no
claim depends on it. -/
def DirRecord.add_child (d c : DirRecord) : DirRecord :=
  if c.is_dot then d.setChildren (c :: d.children)
  else if c.is_dotdot then
    match d.children with
    | x :: rest =>
      if x.is_dot then d.setChildren (x :: c :: rest)
      else d.setChildren (c :: x :: rest)
    | [] => d.setChildren [c]
  else d.setChildren (insertChildSorted c d.children)

/-- Remove the child at `index`, as `remove_child` does with the index
returned by `_find_record`.  Modelled from the spec (dr module missing);
the data-length shrinking is not modelled. -/
def DirRecord.remove_child_at (d : DirRecord) (index : Nat) : DirRecord :=
  d.setChildren (d.children.eraseIdx index)

/-- `new_root` from dr.py.  Modelled from the spec: the root directory
record occupies one logical block and carries the 0x00 identifier. -/
def DirRecord.new_root (seqnum log_block_size : Nat) : DirRecord :=
  .mk dotIdent true log_block_size 0 none []

/-- `new_dot` from dr.py.  Modelled from the spec: a "." sentinel, with a
Rock Ridge block when the image is a Rock Ridge one. -/
def DirRecord.new_dot (seqnum : Nat) (rock_ridge : Bool) (lbs : Nat) :
    DirRecord :=
  .mk dotIdent true 0 0 (if rock_ridge then some (baseRR "") else none) []

/-- `new_dotdot` from dr.py.  Modelled from the spec: a ".." sentinel;
the `rr_relocated` flag is recorded in the Rock Ridge block. -/
def DirRecord.new_dotdot (seqnum : Nat) (rock_ridge : Bool) (lbs : Nat)
    (rr_relocated : Bool) : DirRecord :=
  .mk dotdotIdent true 0 0
    (if rock_ridge then some { baseRR "" with relocated := rr_relocated }
     else none) []

/-- `new_dir` from dr.py.  Modelled from the spec: a fresh directory
occupies one logical block; `rr_relocated_child` marks the fake record
that carries the CL entry, `rr_relocated` marks the real record that
carries the RE entry (section 4.L). -/
def DirRecord.new_dir (name : String) (seqnum : Nat) (rock_ridge : Bool)
    (rr_name : String) (lbs : Nat) (rr_relocated_child rr_relocated : Bool) :
    DirRecord :=
  .mk name true lbs 0
    (if rock_ridge then
      some { name := rr_name, relocated := rr_relocated,
             hasChildLink := rr_relocated_child, childLinkExtent := 0,
             hasParentLink := false, ceLength := none }
     else none) []

/-- `new_fp` from dr.py.  Modelled from the spec: a fresh file record
with the given data length. -/
def DirRecord.new_fp (length : Nat) (name : String) (seqnum : Nat)
    (rock_ridge : Bool) (rr_name : String) : DirRecord :=
  .mk name false length 0
    (if rock_ridge then some (baseRR rr_name) else none) []

/-- Set the Rock Ridge parent-link mark of a record (the
`dotdot.rock_ridge.parent_link = orig_parent` assignment of
`add_directory`). -/
def DirRecord.setParentLink (d : DirRecord) : DirRecord :=
  match d with
  | .mk i dd l e r cs =>
    .mk i dd l e (r.map (fun rr => { rr with hasParentLink := true })) cs

/-- The static `PrimaryVolumeDescriptor.extent_location` (pyiso.py lines
420-425): the PVD always sits at extent 16. -/
def PrimaryVolumeDescriptor.extent_location : Nat := 16

/-- The numeric part of `PrimaryVolumeDescriptor.new` (pyiso.py lines
255-370): 24 extents of initial space, a 10-byte path table whose extent
count is `ceiling_div 10 4096 * 2`, path tables at 19 and 21, and a fresh
root directory record; the sequence number may not exceed the set
size. -/
def PrimaryVolumeDescriptor.new (set_size seqnum log_block_size : Nat) :
    Except String HeaderVD :=
  if seqnum > set_size then
    .error "Sequence number must be less than or equal to set size"
  else
    .ok { space_size := 24
          set_size := set_size
          seqnum := seqnum
          log_block_size := log_block_size
          path_tbl_size := 10
          path_table_num_extents := ceiling_div 10 4096 * 2
          path_table_location_le := 19
          path_table_location_be := 21
          root := DirRecord.new_root seqnum log_block_size
          path_table_records := [] }

/-- The path table record for the root (`PathTableRecord.new_root`).
Modelled from the spec: the root is directory number 1 with the 0x00
identifier. -/
def rootPathTableRecord : PathTableRecordM :=
  { len_di := 1, xattr_length := 0, extent_location := 0,
    parent_directory_num := 1, directory_identifier := dotIdent }

/-- A path table record for a new directory (`PathTableRecord.new_dir`).
Modelled from the spec (section 4.E). -/
def PathTableRecord.new_dir (name : String) (parent_dirnum : Nat) :
    PathTableRecordM :=
  { len_di := name.length, xattr_length := 0, extent_location := 0,
    parent_directory_num := parent_dirnum, directory_identifier := name }

/-- The record an uninitialized state holds in place of a tree. -/
def emptyDirRecord : DirRecord := .mk "" false 0 0 none []

/-- The descriptor an uninitialized state holds in place of a PVD. -/
def emptyHeaderVD : HeaderVD :=
  { space_size := 0, set_size := 0, seqnum := 0, log_block_size := 0,
    path_tbl_size := 0, path_table_num_extents := 0,
    path_table_location_le := 0, path_table_location_be := 0,
    root := emptyDirRecord, path_table_records := [] }

/-- `PyIso._initialize`: the uninitialized state a fresh object and
`close` produce. -/
def initialState : PyIsoState :=
  { initialized := false, interchange_level := 0, pvd := emptyHeaderVD,
    svds := [], joliet_vd := none, brs := [], num_vdsts := 0,
    eltorito_boot_catalog := none, rock_ridge := false,
    isohybrid_mbr := none, reshuffle_count := 0, last_reshuffle := none }

/-- `PyIso.new` (pyiso.py lines 1798-1913), for the argument defaults
(`set_size` 1, `seqnum` 1, `log_block_size` 2048) together with the
`interchange_level`, `joliet` and `rock_ridge` parameters: build the PVD
and its root path table record, optionally the Joliet SVD with its root,
sentinels and extra space, the VDST and the version descriptor, the root
sentinels, the Rock Ridge extra space, and reshuffle. -/
def PyIso.new (s : PyIsoState) (interchange_level : Nat)
    (joliet rock_ridge : Bool) : PyIsoState × Option String :=
  if s.initialized then
    (s, some "This object already has an ISO; either close it or create a new object")
  else if interchange_level < 1 ∨ interchange_level > 3 then
    (s, some "Invalid interchange level (must be between 1 and 3)")
  else
    match PrimaryVolumeDescriptor.new 1 1 2048 with
    | .error e => (s, some e)
    | .ok pvd0 =>
      let pvd1 := pvd0.add_path_table_record rootPathTableRecord
      let jstep : HeaderVD × List HeaderVD × Option Nat :=
        if joliet then
          match PrimaryVolumeDescriptor.new 1 1 2048 with
          | .error _ => (pvd1, [], none)
          | .ok svd0 =>
            let svd1 := svd0.add_path_table_record rootPathTableRecord
            let dot := DirRecord.new_dot 1 false 2048
            let dotdot := DirRecord.new_dotdot 1 false 2048 false
            let svd2 := { svd1 with
              root := (svd1.root.add_child dot).add_child dotdot }
            let additional_size := 2048 + 2 * 2048 + 2 * 2048 + 2048
            let svd3 := svd2.add_to_space_size additional_size
            (pvd1.add_to_space_size additional_size, [svd3], some 0)
        else (pvd1, [], none)
      let pvd2 := jstep.1
      let dot := DirRecord.new_dot 1 rock_ridge 2048
      let dotdot := DirRecord.new_dotdot 1 rock_ridge 2048 false
      let pvd3 := { pvd2 with
        root := (pvd2.root.add_child dot).add_child dotdot }
      let pvd4 := if rock_ridge then pvd3.add_to_space_size 2048 else pvd3
      let svds1 := if rock_ridge then
          jstep.2.1.map (fun svd => svd.add_to_space_size 2048)
        else jstep.2.1
      let s1 : PyIsoState :=
        { initialized := true
          interchange_level := interchange_level
          pvd := pvd4
          svds := svds1
          joliet_vd := jstep.2.2
          brs := []
          num_vdsts := 1
          eltorito_boot_catalog := none
          rock_ridge := rock_ridge
          isohybrid_mbr := none
          reshuffle_count := s.reshuffle_count
          last_reshuffle := none }
      (doReshuffle s1, none)

/-- The image `new` builds with every argument at its default: level 1,
no Joliet, no Rock Ridge. -/
def newDefaultState : PyIsoState := (PyIso.new initialState 1 false false).1

/-! ### Path handling and record lookup -/

/-- `PyIso._split_path`: require a leading slash and split on slashes,
dropping the leading empty component. -/
def _split_path (iso_path : String) : Except String (List String) :=
  if ¬ pyStartsWithSlash iso_path then .error "Must be a path starting with /"
  else .ok (pySplitSlash iso_path).tail

/-- `PyIso._check_path_depth` (pyiso.py lines 1503-1509): more than 7
components is too deep. -/
def _check_path_depth (iso_path : String) : Except String Unit :=
  match _split_path iso_path with
  | .error e => .error e
  | .ok l =>
    if l.length > 7 then .error "Directory levels too deep (maximum is 7)"
    else .ok ()

/-- One scan over a directory's children during the relocation-entry
collection of `_find_record` (pyiso.py lines 1429-1440): skip the
sentinels, collect children whose Rock Ridge data is RE-marked, and
enqueue directory children.  Returns (relocated entries, directories). -/
def relocScan : List DirRecord → List DirRecord × List DirRecord
  | [] => ([], [])
  | c :: cs =>
    let next := relocScan cs
    if c.is_dot ∨ c.is_dotdot then next
    else
      let here := match c.rock_ridge with
        | some rr => if rr.relocated then [c] else []
        | none => []
      let dirs := if c.isdir then [c] else []
      (here ++ next.1, dirs ++ next.2)

/-- The BFS of the relocation-entry collection, with fuel. -/
def relocLoopF : Nat → List DirRecord → List DirRecord
  | 0, _ => []
  | _ + 1, [] => []
  | fuel + 1, d :: rest =>
    let step := relocScan d.children
    step.1 ++ relocLoopF fuel (rest ++ step.2)

/-- All RE-marked records of a tree, in BFS order. -/
def relocEntries (root : DirRecord) : List DirRecord :=
  relocLoopF (root.tsize + 1) [root]

/-- The per-child matching of the `_find_record` walk (pyiso.py lines
1446-1474): sentinels never match; a child matches on its file
identifier, or, failing that, on its non-relocated Rock Ridge name, in
which case a CL entry redirects the match to the relocated entry with
the linked extent (no match when the link resolves to nothing). -/
def matchChild (reloc : List DirRecord) (child : DirRecord)
    (currpath : String) : Option DirRecord :=
  if child.is_dot ∨ child.is_dotdot then none
  else if child.file_ident = currpath then some child
  else
    match child.rock_ridge with
    | none => none
    | some rr =>
      if rr.relocated then none
      else if rr.name = currpath then
        if rr.hasChildLink then
          reloc.find? (fun entry => rr.childLinkExtent = entry.extent_location)
        else some child
      else none

/-- The main loop of `_find_record`, with fuel: scan the current
children list; on a match of the last component return the record with
the path of its parent and its scan index, on a match of an inner
component descend into the matched directory, and otherwise keep
scanning; a miss raises. -/
def findLoopF (reloc : List DirRecord) :
    Nat → List DirRecord → Nat → String → List String → List String →
      Except String (DirRecord × List String × Nat)
  | 0, _, _, _, _, _ => .error "Could not find path"
  | _ + 1, [], _, _, _, _ => .error "Could not find path"
  | fuel + 1, c :: cs, idx, currpath, rest, parentAcc =>
    match matchChild reloc c currpath with
    | none => findLoopF reloc fuel cs (idx + 1) currpath rest parentAcc
    | some eff =>
      match rest with
      | [] => .ok (eff, parentAcc, idx)
      | next :: rest2 =>
        if eff.isdir then
          findLoopF reloc fuel eff.children 0 next rest2
            (parentAcc ++ [eff.file_ident])
        else findLoopF reloc fuel cs (idx + 1) currpath rest parentAcc

/-- `PyIso._find_record` (pyiso.py lines 1398-1489): resolve an absolute
path against a tree, handling Rock Ridge names and relocation; returns
the record, the identifier path of its parent, and its index in the
parent's children.  The fuel bounds the walk: each descent consumes a
component and each scan step a child, so
`(components + 1) * (tree size + 1) + 1` steps always suffice. -/
def _find_record (rr_active : Bool) (root : DirRecord) (path : String) :
    Except String (DirRecord × List String × Nat) :=
  if ¬ pyStartsWithSlash path then .error "Must be a path starting with /"
  else if path = "/" then .ok (root, [], 0)
  else
    let splitpath := (pySplitSlash path).tail
    let reloc := if rr_active then relocEntries root else []
    match splitpath with
    | [] => .error "Could not find path"
    | c :: rest =>
      findLoopF reloc ((rest.length + 1) * (root.tsize + 1) + 1)
        root.children 0 c rest []

/-- `PyIso._name_and_parent_from_path` (pyiso.py lines 1511-1541): split
the path, take the last component as the name, and resolve the rest to
the parent (the root when the rest is empty).  Returns the name, the
identifier path of the parent node, and the parent record. -/
def _name_and_parent_from_path (rr_active : Bool) (root : DirRecord)
    (iso_path : String) : Except String (String × List String × DirRecord) :=
  if ¬ pyStartsWithSlash iso_path then .error "Must be a path starting with /"
  else
    let splitpath := (pySplitSlash iso_path).tail
    match splitpath.getLast? with
    | none => .error "Could not find path"
    | some name =>
      let rest := splitpath.dropLast
      if rest.isEmpty then .ok (name, [], root)
      else
        match _find_record rr_active root (pyJoinSlash ("" :: rest)) with
        | .error e => .error e
        | .ok (parent, pPath, _) =>
          .ok (name, pPath ++ [parent.file_ident], parent)

/-- Whether a child is the non-sentinel record with the given
identifier. -/
def childNamed (name : String) (c : DirRecord) : Bool :=
  c.file_ident = name ∧ ¬ c.is_dot ∧ ¬ c.is_dotdot

/-- Apply `f` to the node at an identifier path of the tree (the
functional rendering of the source's mutation of the record object the
lookup returned). -/
def updateAtPath (d : DirRecord) :
    List String → (DirRecord → DirRecord) → DirRecord
  | [], f => f d
  | name :: rest, f =>
    d.setChildren (d.children.map (fun c =>
      if childNamed name c then updateAtPath c rest f else c))

/-- The node at an identifier path of the tree, when it exists. -/
def getAtPath (d : DirRecord) : List String → Option DirRecord
  | [] => some d
  | name :: rest =>
    match d.children.find? (childNamed name) with
    | some c => getAtPath c rest
    | none => none

/-- The identifier with which a parent node found by
`_name_and_parent_from_path` is looked up in the path table (the root's
identifier for the empty path). -/
def parentIdentOf (parentPath : List String) : String :=
  parentPath.getLastD dotIdent

/-- Apply `f` to the Joliet SVD (the source holds an aliasing reference
into the SVD list). -/
def updateJoliet (s : PyIsoState) (f : HeaderVD → HeaderVD) : PyIsoState :=
  match s.joliet_vd with
  | some i => { s with svds := s.svds.set i (f (s.svds.getD i emptyHeaderVD)) }
  | none => s

/-- `remove_entry` for a directory from headervd.py.  Modelled from the
spec, as the inverse of the directory form of `add_entry`: shrink the
space size and path table size and drop the directory's path table
record. -/
def HeaderVD.remove_entry_dir (vd : HeaderVD) (flen : Nat) (ident : String) :
    HeaderVD :=
  let pts := vd.path_tbl_size - PathTableRecord.record_length ident.length
  { vd with
    space_size := vd.space_size - ceiling_div flen vd.log_block_size
    path_tbl_size := pts
    path_table_num_extents := ceiling_div pts 4096 * 2
    path_table_records := vd.path_table_records.eraseP
      (fun p => p.directory_identifier = ident) }

/-! ### Mutation methods -/

/-- The message every public method raises on an uninitialized object. -/
def msgNotInitialized : String :=
  "This object is not yet initialized; call either open() or new() to create an ISO"

/-- `PyIso.rm_file` (pyiso.py lines 2521-2550): validate, resolve the
record, refuse directories, then detach the child, shrink the entry
accounting of the PVD (and of the Joliet SVD when present) and
reshuffle. -/
def rm_file (s : PyIsoState) (iso_path : String) : PyIsoState × Option String :=
  if ¬ s.initialized then (s, some msgNotInitialized)
  else if ¬ pyStartsWithSlash iso_path then
    (s, some "Must be a path starting with /")
  else
    match _find_record s.rock_ridge s.pvd.root iso_path with
    | .error e => (s, some e)
    | .ok (child, parentPath, index) =>
      if ¬ child.is_file then
        (s, some "Cannot remove a directory with rm_file (try rm_directory instead(")
      else
        let root1 := updateAtPath s.pvd.root parentPath
          (fun p => p.remove_child_at index)
        let pvd1 := HeaderVD.remove_entry { s.pvd with root := root1 }
          child.file_length 0
        let s1 := updateJoliet { s with pvd := pvd1 }
          (fun svd => svd.remove_entry child.file_length 0)
        (doReshuffle s1, none)

/-- `PyIso.rm_directory` (pyiso.py lines 2552-2596): validate, resolve
the record, refuse files and nonempty directories, detach the child and
shrink the PVD accounting; on a Joliet image then resolve and detach the
Joliet twin (note the source reuses the primary index there) and adjust
both space sizes; finally reshuffle. -/
def rm_directory (s : PyIsoState) (iso_path : String)
    (joliet_path : Option String) : PyIsoState × Option String :=
  if ¬ s.initialized then (s, some msgNotInitialized)
  else if iso_path = "/" then (s, some "Cannot remove base directory")
  else if s.joliet_vd.isSome ∧ joliet_path = none then
    (s, some "A joliet path must be passed when removing joliet directories")
  else
    match _find_record s.rock_ridge s.pvd.root iso_path with
    | .error e => (s, some e)
    | .ok (child, parentPath, index) =>
      if ¬ child.isdir then
        (s, some "Cannot remove a file with rm_directory (try rm_file instead)")
      else if child.children.any (fun c => ¬ c.is_dot ∧ ¬ c.is_dotdot) then
        (s, some "Directory must be empty to use rm_directory")
      else
        let root1 := updateAtPath s.pvd.root parentPath
          (fun p => p.remove_child_at index)
        let pvd1 := HeaderVD.remove_entry_dir { s.pvd with root := root1 }
          child.file_length child.file_ident
        let s1 := { s with pvd := pvd1 }
        match s.joliet_vd, joliet_path with
        | some ji, some jp =>
          match _find_record false ((s.svds.getD ji emptyHeaderVD).root) jp with
          | .error e => (s1, some e)
          | .ok (jchild, jparentPath, _) =>
            let s2 := updateJoliet s1 (fun svd =>
              let jroot := updateAtPath svd.root jparentPath
                (fun p => p.remove_child_at index)
              HeaderVD.remove_entry_dir { svd with root := jroot }
                jchild.file_length jchild.file_ident)
            let s3 := { s2 with
              pvd := s2.pvd.remove_from_space_size s2.pvd.log_block_size }
            let s4 := updateJoliet s3
              (fun svd => svd.remove_from_space_size svd.log_block_size)
            (doReshuffle s4, none)
        | _, _ => (doReshuffle s1, none)

/-- The length of the boot catalog `add_eltorito` synthesizes.  Modelled
from the spec: the eltorito module is not in the sources; section 3 gives
the fresh catalog as a 32-byte validation entry plus a 32-byte initial
entry. -/
def eltoritoCatalogLength : Nat := 64

/-- `PyIso.add_eltorito` (pyiso.py lines 2598-2690): refuse when a
catalog exists, resolve the boot file, derive the sector count, append
the Boot Record and install the catalog object, then validate the
catalog path and name, insert the catalog file record, grow the entry
accounting, mirror the catalog into the Joliet tree when present, grow
the space size and reshuffle.  The validations of step 4 run after the
Boot Record and catalog have been installed. -/
def add_eltorito (s : PyIsoState) (bootfile_path bootcatfile : String)
    (rr_bootcatfile : String) (joliet_bootcatfile : String) :
    PyIsoState × Option String :=
  if ¬ s.initialized then (s, some msgNotInitialized)
  else if s.eltorito_boot_catalog.isSome then
    (s, some "This ISO already has an El Torito Boot Record")
  else
    match _find_record s.rock_ridge s.pvd.root bootfile_path with
    | .error e => (s, some e)
    | .ok (child, _, _) =>
      let sector_count := ceiling_div child.file_length s.pvd.log_block_size
        * s.pvd.log_block_size / 512
      let br : BootRecordM :=
        { boot_system_identifier := elToritoIdent, catalog_extent := 0 }
      let cat : EltoritoM :=
        { catalog_ident := "", initial_ident := child.file_ident,
          sector_count := sector_count }
      let s2 := { s with brs := s.brs ++ [br],
                         eltorito_boot_catalog := some cat }
      match _check_path_depth bootcatfile with
      | .error e => (s2, some e)
      | .ok () =>
        match _name_and_parent_from_path s.rock_ridge s2.pvd.root
            bootcatfile with
        | .error e => (s2, some e)
        | .ok (name, parentPath, _) =>
          match check_iso9660_filename name.data s.interchange_level with
          | .error e => (s2, some e)
          | .ok () =>
            let rec0 := DirRecord.new_fp eltoritoCatalogLength name
              s.pvd.seqnum s.rock_ridge rr_bootcatfile
            let root1 := updateAtPath s2.pvd.root parentPath
              (fun p => p.add_child rec0)
            let pvd1 := HeaderVD.add_entry { s2.pvd with root := root1 }
              eltoritoCatalogLength 0
            let pvd2 :=
              if (rec0.rock_ridge.bind RRInfo.ceLength).isSome then
                pvd1.add_to_space_size pvd1.log_block_size
              else pvd1
            let cat2 : EltoritoM := { cat with catalog_ident := name }
            let s3 := { s2 with pvd := pvd2, eltorito_boot_catalog := some cat2 }
            match s3.joliet_vd, s3.joliet_vd with
            | some ji, _ =>
              match _name_and_parent_from_path false
                  ((s3.svds.getD ji emptyHeaderVD).root) joliet_bootcatfile with
              | .error e => (s3, some e)
              | .ok (jname, jparentPath, _) =>
                let jrec := DirRecord.new_fp eltoritoCatalogLength jname
                  ((s3.svds.getD ji emptyHeaderVD).seqnum) false ""
                let s4 := updateJoliet s3 (fun svd =>
                  let jroot := updateAtPath svd.root jparentPath
                    (fun p => p.add_child jrec)
                  HeaderVD.add_entry { svd with root := jroot }
                    eltoritoCatalogLength 0)
                let s5 := updateJoliet s4
                  (fun svd => svd.add_to_space_size svd.log_block_size)
                let s6 := { s5 with
                  pvd := s5.pvd.add_to_space_size s5.pvd.log_block_size }
                (doReshuffle s6, none)
            | none, _ =>
              let s6 := { s3 with
                pvd := s3.pvd.add_to_space_size s3.pvd.log_block_size }
              (doReshuffle s6, none)

/-- `PyIso.add_symlink` (pyiso.py lines 2751-2780): Rock Ridge only, the
target must be relative; every check precedes the insertion. -/
def add_symlink (s : PyIsoState)
    (symlink_path rr_symlink_name rr_path : String) :
    PyIsoState × Option String :=
  if ¬ s.initialized then (s, some msgNotInitialized)
  else if ¬ s.rock_ridge then
    (s, some "Can only add symlinks to a Rock Ridge ISO")
  else
    match _check_path_depth symlink_path with
    | .error e => (s, some e)
    | .ok () =>
      match _name_and_parent_from_path s.rock_ridge s.pvd.root
          symlink_path with
      | .error e => (s, some e)
      | .ok (name, parentPath, _) =>
        if pyStartsWithSlash rr_path then
          (s, some "Rock Ridge symlink target path must be relative")
        else
          let rec0 := DirRecord.new_fp 0 name s.pvd.seqnum true rr_symlink_name
          let root1 := updateAtPath s.pvd.root parentPath
            (fun p => p.add_child rec0)
          let pvd1 := { s.pvd with root := root1 }
          (doReshuffle { s with pvd := pvd1 }, none)

/-! ### add_fp and add_directory -/

/-- The last path component of a Rock Ridge path, used as the Rock Ridge
name of a new record. -/
def rrNameOf (rr_path : Option String) : String :=
  match rr_path with
  | some rp => (pySplitSlash rp).getLastD ""
  | none => ""

/-- `PyIso.add_fp` (pyiso.py lines 2306-2379): validate the Rock Ridge
and Joliet arguments, the path depth and the name, insert the new file
record under its parent and grow the entry accounting; on a Joliet image
then resolve the Joliet parent (a failure there leaves the primary
insertion behind) and insert the twin; finally reshuffle. -/
def add_fp (s : PyIsoState) (length : Nat) (iso_path : String)
    (rr_path joliet_path : Option String) : PyIsoState × Option String :=
  if ¬ s.initialized then (s, some msgNotInitialized)
  else if s.rock_ridge ∧ rr_path = none then
    (s, some "A rock ridge path must be passed for a rock-ridge ISO")
  else if ¬ s.rock_ridge ∧ rr_path.isSome then
    (s, some "A rock ridge path can only be specified for a rock-ridge ISO")
  else if s.joliet_vd.isSome ∧ joliet_path = none then
    (s, some "A Joliet path must be passed for a Joliet ISO")
  else if s.joliet_vd = none ∧ joliet_path.isSome then
    (s, some "A Joliet path can only be specified for a Joliet ISO")
  else
    match _check_path_depth iso_path with
    | .error e => (s, some e)
    | .ok () =>
      match _name_and_parent_from_path s.rock_ridge s.pvd.root iso_path with
      | .error e => (s, some e)
      | .ok (name, parentPath, _) =>
        match check_iso9660_filename name.data s.interchange_level with
        | .error e => (s, some e)
        | .ok () =>
          let rec0 := DirRecord.new_fp length name s.pvd.seqnum s.rock_ridge
            (rrNameOf rr_path)
          let root1 := updateAtPath s.pvd.root parentPath
            (fun p => p.add_child rec0)
          let pvd1 := HeaderVD.add_entry { s.pvd with root := root1 }
            length 0
          let s1 := { s with pvd := pvd1 }
          match s1.joliet_vd, joliet_path with
          | some ji, some jp =>
            match _name_and_parent_from_path false
                ((s1.svds.getD ji emptyHeaderVD).root) jp with
            | .error e => (s1, some e)
            | .ok (jname, jparentPath, _) =>
              let jrec := DirRecord.new_fp length jname
                ((s1.svds.getD ji emptyHeaderVD).seqnum) false ""
              let s2 := updateJoliet s1 (fun svd =>
                let jroot := updateAtPath svd.root jparentPath
                  (fun p => p.add_child jrec)
                HeaderVD.add_entry { svd with root := jroot } length 0)
              (doReshuffle s2, none)
          | _, _ => (doReshuffle s1, none)

/-- `PyIso._find_or_create_rr_moved` (pyiso.py lines 1754-1792): return
the path of an existing `/RR_MOVED`, or create one under the root with
its sentinels, its entry accounting and its path table record. -/
def find_or_create_rr_moved (s : PyIsoState) : PyIsoState × List String :=
  match _find_record s.rock_ridge s.pvd.root "/RR_MOVED" with
  | .ok (rec, pPath, _) => (s, pPath ++ [rec.file_ident])
  | .error _ =>
    let rec0 := DirRecord.new_dir "RR_MOVED" s.pvd.seqnum s.rock_ridge
      "rr_moved" s.pvd.log_block_size false false
    let dot := DirRecord.new_dot s.pvd.seqnum s.rock_ridge s.pvd.log_block_size
    let dotdot := DirRecord.new_dotdot s.pvd.seqnum s.rock_ridge
      s.pvd.log_block_size false
    let recFull := (rec0.add_child dot).add_child dotdot
    let pvd1 := { s.pvd with root := s.pvd.root.add_child recFull }
    let pvd2 := pvd1.add_entry s.pvd.log_block_size
      (PathTableRecord.record_length ("RR_MOVED" : String).length)
    let pvd3 := pvd2.add_path_table_record
      (PathTableRecord.new_dir "RR_MOVED" (pvd2.find_parent_dirnum dotIdent))
    ({ s with pvd := pvd3 }, ["RR_MOVED"])

/-- `PyIso.add_directory` (pyiso.py lines 2381-2519): validate the Rock
Ridge and Joliet arguments (computing the depth on a Rock Ridge image),
check the depth only when Rock Ridge is off, resolve the parent and
validate the directory name; when Rock Ridge is on and the depth is a
multiple of 8, find or create `/RR_MOVED`, place a fake CL-carrying
record under the original parent and the real RE-marked record (whose
".." carries the parent link) under `/RR_MOVED`; otherwise place the
record under its parent; update the accounting and path table, mirror
into Joliet when present, and reshuffle. -/
def add_directory (s : PyIsoState) (iso_path : String)
    (rr_path joliet_path : Option String) : PyIsoState × Option String :=
  if ¬ s.initialized then (s, some msgNotInitialized)
  else if s.rock_ridge ∧ rr_path = none then
    (s, some "A rock ridge path must be passed for a rock-ridge ISO")
  else if ¬ s.rock_ridge ∧ rr_path.isSome then
    (s, some "A rock ridge path can only be specified for a rock-ridge ISO")
  else
    match (if s.rock_ridge then (_split_path iso_path).map List.length
           else .ok 0) with
    | .error e => (s, some e)
    | .ok depth =>
      if s.joliet_vd.isSome ∧ joliet_path = none then
        (s, some "A Joliet path must be passed for a Joliet ISO")
      else if s.joliet_vd = none ∧ joliet_path.isSome then
        (s, some "A Joliet path can only be specified for a Joliet ISO")
      else
        match (if ¬ s.rock_ridge then _check_path_depth iso_path
               else .ok ()) with
        | .error e => (s, some e)
        | .ok () =>
          match _name_and_parent_from_path s.rock_ridge s.pvd.root
              iso_path with
          | .error e => (s, some e)
          | .ok (name, parentPath, _) =>
            match check_iso9660_directory name.data s.interchange_level with
            | .error e => (s, some e)
            | .ok () =>
              let lbs := s.pvd.log_block_size
              let relocated := s.rock_ridge && (depth % 8 == 0)
              let step1 : PyIsoState × List String :=
                if relocated then
                  let fcr := find_or_create_rr_moved s
                  let s1 := fcr.1
                  let fake0 := DirRecord.new_dir name s.pvd.seqnum
                    s.rock_ridge (rrNameOf rr_path) lbs true false
                  let fdot := DirRecord.new_dot s.pvd.seqnum s.rock_ridge lbs
                  let fdotdot := DirRecord.new_dotdot s.pvd.seqnum
                    s.rock_ridge lbs false
                  let fake := (fake0.add_child fdot).add_child fdotdot
                  let froot := updateAtPath s1.pvd.root parentPath
                    (fun p => p.add_child fake)
                  let pvd1 := { s1.pvd with root := froot }
                  let pvd2 := pvd1.add_entry lbs
                    (PathTableRecord.record_length name.length)
                  let pvd3 := pvd2.add_path_table_record
                    (PathTableRecord.new_dir name
                      (pvd2.find_parent_dirnum (parentIdentOf parentPath)))
                  ({ s1 with pvd := pvd3 }, fcr.2)
                else (s, parentPath)
              let sA := step1.1
              let newParentPath := step1.2
              let real0 := DirRecord.new_dir name s.pvd.seqnum s.rock_ridge
                (rrNameOf rr_path) lbs false relocated
              let rdot := DirRecord.new_dot s.pvd.seqnum s.rock_ridge lbs
              let rdotdot0 := DirRecord.new_dotdot s.pvd.seqnum s.rock_ridge
                lbs relocated
              let rdotdot := if rdotdot0.rock_ridge.isSome && relocated then
                  rdotdot0.setParentLink
                else rdotdot0
              let real := (real0.add_child rdot).add_child rdotdot
              let rootA := updateAtPath sA.pvd.root newParentPath
                (fun p => p.add_child real)
              let pvdA := { sA.pvd with root := rootA }
              let pvdB := pvdA.add_entry lbs
                (PathTableRecord.record_length name.length)
              let pvdC := pvdB.add_path_table_record
                (PathTableRecord.new_dir name
                  (pvdB.find_parent_dirnum (parentIdentOf newParentPath)))
              let sB := { sA with pvd := pvdC }
              match sB.joliet_vd, joliet_path with
              | some ji, some jp =>
                match _name_and_parent_from_path false
                    ((sB.svds.getD ji emptyHeaderVD).root) jp with
                | .error e => (sB, some e)
                | .ok (jname, jparentPath, _) =>
                  let jsvd := sB.svds.getD ji emptyHeaderVD
                  let jrec0 := DirRecord.new_dir jname jsvd.seqnum false ""
                    jsvd.log_block_size false false
                  let jdot := DirRecord.new_dot jsvd.seqnum false
                    jsvd.log_block_size
                  let jdotdot := DirRecord.new_dotdot jsvd.seqnum false
                    jsvd.log_block_size false
                  let jrec := (jrec0.add_child jdot).add_child jdotdot
                  let sC := updateJoliet sB (fun svd =>
                    let jroot := updateAtPath svd.root jparentPath
                      (fun p => p.add_child jrec)
                    let svd1 := { svd with root := jroot }
                    let svd2 := svd1.add_entry svd1.log_block_size
                      (PathTableRecord.record_length jname.length)
                    svd2.add_path_table_record
                      (PathTableRecord.new_dir jname
                        (svd2.find_parent_dirnum (parentIdentOf jparentPath))))
                  let sD := { sC with
                    pvd := sC.pvd.add_to_space_size sC.pvd.log_block_size }
                  let sE := updateJoliet sD
                    (fun svd => svd.add_to_space_size svd.log_block_size)
                  (doReshuffle sE, none)
              | _, _ => (doReshuffle sB, none)

/-! ### rm_isohybrid -/

/-- `rm_isohybrid` (pyiso.py lines 2878-2892): after the initialization
check, drop the isohybrid MBR reference; nothing else is touched and no
reshuffle runs. -/
def rm_isohybrid (s : PyIsoState) : PyIsoState × Option String :=
  if ¬ s.initialized then
    (s, some "This object is not yet initialized; call either open() or new() to create an ISO")
  else ({ s with isohybrid_mbr := none }, none)

/-! ### The writer's progress reporting -/

/-- What the writer's primary directory walk reports for one popped
directory: one increment of the directory's own `file_length`, then, in
child order, one increment per continuation-entry write at offset zero
(a padded block) and one per file write (the file data plus its padding
to a block). -/
structure WriteDirInfo where
  file_length : Nat
  child_increments : List Nat
deriving DecidableEq

/-- What the writer reads from the image when reporting progress: the
space size and block size, the descriptor counts, the path-table extent
counts, the primary directory walk and, for each SVD, the file lengths of
its popped directories, plus the optional isohybrid MBR. -/
structure WriteShape where
  space_size : Nat
  log_block_size : Nat
  num_brs : Nat
  num_svds : Nat
  num_vdsts : Nat
  pvd_path_table_num_extents : Nat
  svd_path_table_num_extents : List Nat
  pvd_dirs : List WriteDirInfo
  svd_dirs : List (List Nat)
  isohybrid : Option IsoHybridM
deriving DecidableEq

/-- The increments between successive progress callbacks of `write`
(pyiso.py lines 2097-2304), in call order: the 2048-byte PVD record, one
2048-byte record per Boot Record, SVD and VDST, the version descriptor
block, one increment per path-table pair, then the directory walks. -/
def progressSteps (w : WriteShape) : List Nat :=
  2048 ::
  (List.replicate w.num_brs 2048 ++
   List.replicate w.num_svds 2048 ++
   List.replicate w.num_vdsts 2048 ++
   [w.log_block_size] ++
   [w.pvd_path_table_num_extents * 2 * w.log_block_size] ++
   w.svd_path_table_num_extents.map (fun n => n * 2 * w.log_block_size) ++
   (w.pvd_dirs.map (fun d => d.file_length :: d.child_increments)).flatten ++
   w.svd_dirs.flatten)

/-- `record_padding` from isohybrid.py.  Modelled from the spec: the
isohybrid module is not in the sources; sections 4.H and 4.K say the
image is tail-padded to a whole cylinder of
`heads * sectors * 512` bytes. -/
def isohybridTailPad (size : Nat) (g : IsoHybridM) : Nat :=
  let cyl := g.geometry_heads * g.geometry_sectors * 512
  (cyl - size % cyl) % cyl

/-- The size the output file has when `write` issues its final progress
callback: the image is truncated to `space_size * log_block_size` and,
when an isohybrid MBR is active, the tail padding is appended after the
truncation. -/
def writeFinalSize (w : WriteShape) : Nat :=
  let total := w.space_size * w.log_block_size
  match w.isohybrid with
  | some g => total + isohybridTailPad total g
  | none => total

/-- The full sequence of `(done, total)` pairs passed to the progress
callback by one `write` call: the initial `(0, total)` call, one call per
step with the running sum, and the final call reporting the output file
size. -/
def writeProgressCalls (w : WriteShape) : List (Nat × Nat) :=
  let total := w.space_size * w.log_block_size
  ((List.scanl (· + ·) 0 (progressSteps w)) ++ [writeFinalSize w]).map
    (fun d => (d, total))

/-- A concrete write of the default 24-extent image with an isohybrid MBR
of the default 32-sector, 64-head geometry. -/
def sampleIsohybridWrite : WriteShape :=
  { space_size := 24, log_block_size := 2048, num_brs := 1, num_svds := 0,
    num_vdsts := 1, pvd_path_table_num_extents := 2,
    svd_path_table_num_extents := [], pvd_dirs := [⟨2048, [2048]⟩],
    svd_dirs := [],
    isohybrid := some { geometry_sectors := 32, geometry_heads := 64 } }

/-- A concrete write of the default 24-extent image without an isohybrid
MBR. -/
def sampleWriteShape : WriteShape :=
  { space_size := 24, log_block_size := 2048, num_brs := 0, num_svds := 0,
    num_vdsts := 1, pvd_path_table_num_extents := 2,
    svd_path_table_num_extents := [], pvd_dirs := [⟨2048, []⟩],
    svd_dirs := [], isohybrid := none }

/-- The PVD numeric fields of a consistent descriptor, used to witness
the dual-endian theorem. -/
def samplePvdFields : PvdNumericFields :=
  { space_size_le := ⟨24, 0, 0, 0⟩, space_size_be := ⟨0, 0, 0, 24⟩,
    set_size_le := ⟨1, 0⟩, set_size_be := ⟨0, 1⟩,
    seqnum_le := ⟨1, 0⟩, seqnum_be := ⟨0, 1⟩,
    logical_block_size_le := ⟨0, 8⟩, logical_block_size_be := ⟨8, 0⟩,
    path_table_size_le := ⟨10, 0, 0, 0⟩, path_table_size_be := ⟨0, 0, 0, 10⟩ }

/-- A concrete initialized image holding one 4-byte file `/BOOT.;1`,
built from the default image through `add_fp`. -/
def sampleBootState : PyIsoState :=
  (add_fp newDefaultState 4 "/BOOT.;1" none none).1

/-- The image after a successful `add_eltorito` on `sampleBootState`. -/
def sampleEltoritoState : PyIsoState :=
  (add_eltorito sampleBootState "/BOOT.;1" "/BOOT.CAT;1" "boot.cat"
    "/boot.cat").1


/-- A chain of `n+1` nested directories all named "D", with Rock Ridge
name "d". -/
def sampleChain : Nat → DirRecord
  | 0 => DirRecord.mk "D" true 2048 30 (some (baseRR "d")) []
  | n + 1 => DirRecord.mk "D" true 2048 (29 - n) (some (baseRR "d"))
      [sampleChain n]

/-- A concrete Rock Ridge image whose primary hierarchy is a chain of
seven directories, so that a new directory under the deepest one sits at
depth 8. -/
def sampleDeepPvd : HeaderVD :=
  { emptyHeaderVD with
    space_size := 31
    seqnum := 1
    log_block_size := 2048
    root := DirRecord.mk dotIdent true 2048 23 none [sampleChain 6] }

/-- The state packaging `sampleDeepPvd` as a Rock Ridge image. -/
def sampleDeepState : PyIsoState :=
  { initialized := true, interchange_level := 1, pvd := sampleDeepPvd,
    svds := [], joliet_vd := none, brs := [], num_vdsts := 1,
    eltorito_boot_catalog := none, rock_ridge := true,
    isohybrid_mbr := none, reshuffle_count := 0, last_reshuffle := none }

/-! ## Theorems -/

theorem swab_16bit_le_eq_be (b : Byte2) : swab_16bit b.le = b.be := by
  obtain ⟨⟨x0, h0⟩, ⟨x1, h1⟩⟩ := b
  simp only [swab_16bit, Byte2.le, Byte2.be]
  omega

theorem swab_32bit_le_eq_be (b : Byte4) : swab_32bit b.le = b.be := by
  obtain ⟨⟨x0, h0⟩, ⟨x1, h1⟩, ⟨x2, h2⟩, ⟨x3, h3⟩⟩ := b
  simp only [swab_32bit, Byte4.le, Byte4.be]
  omega

theorem tsizeList_sublist_le {l m : List DirRecord} (h : l.Sublist m) :
    tsizeList l ≤ tsizeList m := by
  induction h with
  | slnil => simp [tsizeList]
  | cons a _ ih => simp only [tsizeList]; omega
  | cons₂ a _ ih => simp only [tsizeList]; omega

theorem tsizeList_children_lt (c : DirRecord) :
    tsizeList c.children < c.tsize := by
  cases c with
  | mk i d l e r cs =>
    simp [DirRecord.tsize, DirRecord.children]

theorem reassignChildren_subdirs_sublist (lbs : Nat) (cs : List DirRecord)
    (cur : Nat) (rrExt : Option Nat) (rrOff : Nat) :
    (reassignChildren lbs cs cur rrExt rrOff).2.2.2.2.Sublist cs := by
  induction cs generalizing cur rrExt rrOff with
  | nil => simp [reassignChildren]
  | cons c rest ih =>
    rw [reassignChildren]
    by_cases h : c.isdir ∧ (c.is_dot ∨ c.is_dotdot)
    · simp only [if_pos h]
      exact (ih cur rrExt rrOff).cons c
    · simp only [if_neg h]
      by_cases hdir : c.isdir
      · simp only [hdir, if_pos]
        exact (ih _ _ _).cons₂ c
      · simp only [hdir]
        simp only [Bool.false_eq_true, if_neg (fun hh => hh)]
        exact (ih _ _ _).cons c

theorem fileAssignChildren_subdirs_sublist (lbs : Nat) (sk : List String)
    (cs : List DirRecord) (cur : Nat) :
    (fileAssignChildren lbs sk cs cur).2.2.Sublist cs := by
  induction cs generalizing cur with
  | nil => simp [fileAssignChildren]
  | cons c rest ih =>
    rw [fileAssignChildren]
    by_cases hdir : c.isdir
    · simp only [hdir, if_pos]
      by_cases hsent : c.is_dot ∨ c.is_dotdot
      · simp only [if_pos hsent]
        exact (ih cur).cons c
      · simp only [if_neg hsent]
        exact (ih cur).cons₂ c
    · simp only [hdir]
      by_cases hskip : sk.contains c.file_ident
      · simp only [Bool.false_eq_true, if_neg (fun hh => hh)]
        rw [if_pos (by simpa using hskip)]
        exact (ih cur).cons c
      · simp only [Bool.false_eq_true, if_neg (fun hh => hh)]
        rw [if_neg (by simpa using hskip)]
        exact (ih _).cons c

theorem path_table_record_be_equal_to_le_iff (le : List PathTableRecordM)
    (i : Nat) (p : PathTableRecordM) :
    path_table_record_be_equal_to_le le i p = true ↔ le.get? i = some p := by
  unfold path_table_record_be_equal_to_le
  cases h : le.get? i <;> simp

theorem comparePathTablesFrom_ok_iff (le be : List PathTableRecordM)
    (start : Nat) :
    comparePathTablesFrom le start be = .ok () ↔
      ∀ i, (hi : i < be.length) → le.get? (start + i) = some (be.get ⟨i, hi⟩) := by
  induction be generalizing start with
  | nil => simp [comparePathTablesFrom]
  | cons p rest ih =>
    rw [comparePathTablesFrom]
    by_cases hp : path_table_record_be_equal_to_le le start p = true
    · rw [if_neg (by simpa using hp)]
      rw [ih]
      constructor
      · intro hrec i hi
        cases i with
        | zero =>
          simpa using (path_table_record_be_equal_to_le_iff le start p).1 hp
        | succ j =>
          have hj : j < rest.length := by
            simpa [Nat.succ_lt_succ_iff] using hi
          have harith : start + (j + 1) = start + 1 + j := by omega
          rw [harith]
          simpa using hrec j hj
      · intro hall j hj
        have hj1 : j + 1 < (p :: rest).length := by
          simpa [Nat.succ_lt_succ_iff] using hj
        have hstep := hall (j + 1) hj1
        have harith : start + (j + 1) = start + 1 + j := by omega
        rw [harith] at hstep
        simpa using hstep
    · rw [if_pos (by simpa using hp)]
      constructor
      · intro hcontra; exact absurd hcontra (by simp)
      · intro hall
        have := hall 0 (by simp)
        exact absurd ((path_table_record_be_equal_to_le_iff le start p).2
          (by simpa using this)) hp

/-- Claim C2: for every parse, a dual-endian PVD field whose little- and
big-endian halves decode to different values raises, and the collected,
sorted big-endian path table records raise exactly when they do not agree
field-by-field with the little-endian records at the same positions. -/
theorem claim_C2_dual_endian_agreement :
    (∀ f : PvdNumericFields,
      ((∃ v, pvdParseDualEndian f = .ok v) ↔
        (f.space_size_le.le = f.space_size_be.be ∧
         f.set_size_le.le = f.set_size_be.be ∧
         f.seqnum_le.le = f.seqnum_be.be ∧
         f.logical_block_size_le.le = f.logical_block_size_be.be ∧
         f.path_table_size_le.le = f.path_table_size_be.be))) ∧
    (∀ le_records be_sorted : List PathTableRecordM,
      (comparePathTables le_records be_sorted = .ok () ↔
        ∀ i, (hi : i < be_sorted.length) →
          le_records.get? i = some (be_sorted.get ⟨i, hi⟩))) := by
  constructor
  · intro f
    unfold pvdParseDualEndian
    rw [swab_32bit_le_eq_be, swab_16bit_le_eq_be, swab_16bit_le_eq_be,
      swab_16bit_le_eq_be, swab_32bit_le_eq_be]
    split_ifs with h1 h2 h3 h4 h5 <;> simp_all
  · intro le_records be_sorted
    simpa using comparePathTablesFrom_ok_iff le_records be_sorted 0

/-- Claim C9: for positive `pad_size`, `pad` returns only zero bytes,
strictly fewer than `pad_size` of them, taking `data_size` up to a
multiple of `pad_size`, and returns the empty string exactly when
`data_size` is already a multiple of `pad_size`. -/
theorem claim_C9_pad_correct (data_size pad_size : Nat) (h : 0 < pad_size) :
    (∀ b ∈ pad data_size pad_size, b = 0) ∧
    (pad data_size pad_size).length < pad_size ∧
    (data_size + (pad data_size pad_size).length) % pad_size = 0 ∧
    ((pad data_size pad_size).length = 0 ↔ data_size % pad_size = 0) := by
  have hlt : data_size % pad_size < pad_size := Nat.mod_lt _ h
  simp only [pad]
  by_cases hr : data_size % pad_size = 0
  · rw [if_neg (by omega)]
    exact ⟨by simp, h, by simpa using hr, by simp [hr]⟩
  · rw [if_pos (by omega)]
    refine ⟨?_, ?_, ?_, ?_⟩
    · intro b hb; exact List.eq_of_mem_replicate hb
    · simp only [List.length_replicate]; omega
    · simp only [List.length_replicate]
      have heq : data_size + (pad_size - data_size % pad_size)
          = pad_size * (data_size / pad_size + 1) := by
        have hdm := Nat.div_add_mod data_size pad_size
        rw [Nat.mul_add, Nat.mul_one]
        omega
      rw [heq, Nat.mul_mod_right]
    · simp only [List.length_replicate]
      omega

/-- Witness for claim C9 at `data_size` 3, `pad_size` 4. -/
theorem claim_C9_pad_witness :
    0 < 4 ∧
    ((∀ b ∈ pad 3 4, b = 0) ∧ (pad 3 4).length < 4 ∧
      (3 + (pad 3 4).length) % 4 = 0 ∧ ((pad 3 4).length = 0 ↔ 3 % 4 = 0)) :=
  ⟨by decide, claim_C9_pad_correct 3 4 (by decide)⟩

/-- Claim C4 (code-bug evidence): the parser recognizes a Joliet SVD by
comparing the first three escape bytes against `%/*`, `%/C`, `%/E`, so an
SVD carrying the Joliet standard's `%/@` sequence with flag bit 0 clear
is not recognized, while the nonstandard `%/*` is; a second SVD passing
the source's test raises. -/
theorem claim_C4_joliet_escape_evidence :
    isJolietSVD 0 ('%' :: '/' :: '@' :: List.replicate 29 (Char.ofNat 0))
      = false ∧
    isJolietSVD 0 ('%' :: '/' :: '*' :: List.replicate 29 (Char.ofNat 0))
      = true ∧
    isJolietSVD 0 ('%' :: '/' :: 'E' :: List.replicate 29 (Char.ofNat 0))
      = true ∧
    isJolietSVD 1 ('%' :: '/' :: 'E' :: List.replicate 29 (Char.ofNat 0))
      = false ∧
    selectJolietSVD [(0, ['%', '/', 'E']), (0, ['%', '/', 'E'])]
      = .error "Only a single Joliet SVD is supported" := by
  refine ⟨by decide, by decide, by decide, by decide, by rfl⟩

/-- Claim C10: on an initialized image, `rm_isohybrid` never raises, is
idempotent, and only clears the isohybrid MBR: every other component of
the state is unchanged and no reshuffle runs. -/
theorem claim_C10_rm_isohybrid (s : PyIsoState) (h : s.initialized = true) :
    (rm_isohybrid s).2 = none ∧
    (rm_isohybrid s).1 = { s with isohybrid_mbr := none } ∧
    rm_isohybrid (rm_isohybrid s).1 = rm_isohybrid s ∧
    (rm_isohybrid s).1.initialized = s.initialized ∧
    (rm_isohybrid s).1.interchange_level = s.interchange_level ∧
    (rm_isohybrid s).1.pvd = s.pvd ∧
    (rm_isohybrid s).1.svds = s.svds ∧
    (rm_isohybrid s).1.joliet_vd = s.joliet_vd ∧
    (rm_isohybrid s).1.brs = s.brs ∧
    (rm_isohybrid s).1.num_vdsts = s.num_vdsts ∧
    (rm_isohybrid s).1.eltorito_boot_catalog = s.eltorito_boot_catalog ∧
    (rm_isohybrid s).1.rock_ridge = s.rock_ridge ∧
    (rm_isohybrid s).1.reshuffle_count = s.reshuffle_count ∧
    (rm_isohybrid s).1.last_reshuffle = s.last_reshuffle := by
  simp [rm_isohybrid, h]

/-- Witness for claim C10 at the default fresh image. -/
theorem claim_C10_rm_isohybrid_witness :
    newDefaultState.initialized = true ∧
    (rm_isohybrid newDefaultState).2 = none ∧
    rm_isohybrid (rm_isohybrid newDefaultState).1
      = rm_isohybrid newDefaultState :=
  ⟨by rfl, (claim_C10_rm_isohybrid newDefaultState (by rfl)).1,
    (claim_C10_rm_isohybrid newDefaultState (by rfl)).2.2.1⟩

theorem map_fst_pair (L : List Nat) (t : Nat) :
    (L.map (fun d => (d, t))).map Prod.fst = L := by
  induction L with
  | nil => rfl
  | cons a l ih => simp only [List.map_cons, ih]

theorem scanl_add_head (a : Nat) (l : List Nat) :
    (List.scanl (· + ·) a l).head? = some a := by
  cases l <;> simp [List.scanl_nil, List.scanl_cons]

theorem scanl_add_chain (a : Nat) (l : List Nat) :
    List.Chain' (· ≤ ·) (List.scanl (· + ·) a l) := by
  induction l generalizing a with
  | nil => simp [List.scanl_nil]
  | cons x xs ih =>
    rw [List.scanl_cons, List.singleton_append, List.chain'_cons']
    refine ⟨?_, ih (a + x)⟩
    intro b hb
    rw [scanl_add_head] at hb
    simp at hb
    omega

theorem scanl_add_getLast (l : List Nat) (a : Nat) :
    (List.scanl (· + ·) a l).getLast? = some (a + l.sum) := by
  induction l generalizing a with
  | nil => simp [List.scanl_nil]
  | cons x xs ih =>
    rw [List.scanl_cons, List.singleton_append]
    have h2 := ih (a + x)
    cases hsc : List.scanl (· + ·) (a + x) xs with
    | nil => cases xs <;> simp [List.scanl_nil, List.scanl_cons] at hsc
    | cons c L =>
      rw [hsc] at h2
      rw [List.getLast?_cons_cons, h2]
      congr 1
      simp only [List.sum_cons]
      omega

theorem writeFinalSize_ge (w : WriteShape) :
    w.space_size * w.log_block_size ≤ writeFinalSize w := by
  unfold writeFinalSize
  cases w.isohybrid <;> simp

/-- Claim C8 (amended): every progress callback passes
`total = space_size * log_block_size`; the reported `done` values are
monotonically non-decreasing starting at 0 provided the accounted
increments fit in the image size; and the final callback reports the
output size, which equals `total` exactly when no isohybrid MBR is
active (with an isohybrid MBR the cylinder tail padding is added). -/
theorem claim_C8_write_progress (w : WriteShape)
    (hsum : (progressSteps w).sum ≤ w.space_size * w.log_block_size) :
    (∀ c ∈ writeProgressCalls w, c.2 = w.space_size * w.log_block_size) ∧
    List.Chain' (· ≤ ·) ((writeProgressCalls w).map Prod.fst) ∧
    ((writeProgressCalls w).map Prod.fst).head? = some 0 ∧
    ((writeProgressCalls w).map Prod.fst).getLast? = some (writeFinalSize w) ∧
    (w.isohybrid = none → writeFinalSize w = w.space_size * w.log_block_size)
    := by
  have hmap : (writeProgressCalls w).map Prod.fst
      = List.scanl (· + ·) 0 (progressSteps w) ++ [writeFinalSize w] := by
    unfold writeProgressCalls
    exact map_fst_pair _ _
  refine ⟨?_, ?_, ?_, ?_, ?_⟩
  · intro c hc
    unfold writeProgressCalls at hc
    simp only [List.mem_map] at hc
    obtain ⟨d, _, rfl⟩ := hc
    rfl
  · rw [hmap]
    rw [List.chain'_append]
    refine ⟨scanl_add_chain 0 (progressSteps w), by simp, ?_⟩
    intro x hx y hy
    rw [scanl_add_getLast] at hx
    simp only [Option.mem_def, Option.some.injEq] at hx
    simp only [List.head?_cons, Option.mem_def, Option.some.injEq] at hy
    subst hx
    subst hy
    calc 0 + (progressSteps w).sum = (progressSteps w).sum := by omega
    _ ≤ w.space_size * w.log_block_size := hsum
    _ ≤ writeFinalSize w := writeFinalSize_ge w
  · rw [hmap]
    cases hsc : List.scanl (· + ·) 0 (progressSteps w) with
    | nil => cases h : progressSteps w <;>
        simp [h, List.scanl_nil, List.scanl_cons] at hsc
    | cons c L =>
      have := scanl_add_head 0 (progressSteps w)
      rw [hsc] at this
      simp only [List.head?_cons, Option.some.injEq] at this
      simp [this]
  · rw [hmap, List.getLast?_concat]
  · intro hnone
    unfold writeFinalSize
    rw [hnone]

/-- Witness for claim C8 at a concrete non-isohybrid write of the default
24-extent image. -/
theorem claim_C8_write_progress_witness :
    (progressSteps sampleWriteShape).sum
      ≤ sampleWriteShape.space_size * sampleWriteShape.log_block_size ∧
    List.Chain' (· ≤ ·)
      ((writeProgressCalls sampleWriteShape).map Prod.fst) ∧
    ((writeProgressCalls sampleWriteShape).map Prod.fst).getLast?
      = some (writeFinalSize sampleWriteShape) :=
  ⟨by decide, (claim_C8_write_progress sampleWriteShape (by decide)).2.1,
    (claim_C8_write_progress sampleWriteShape (by decide)).2.2.2.1⟩

/-- Counterexample for claim C8 as stated: with an isohybrid MBR the
final callback reports the image size plus the cylinder tail padding,
which differs from `space_size * 2048`. -/
theorem claim_C8_final_call_counterexample :
    ((writeProgressCalls sampleIsohybridWrite).map Prod.fst).getLast?
      ≠ some (sampleIsohybridWrite.space_size
          * sampleIsohybridWrite.log_block_size) := by
  decide

theorem rm_file_error_unchanged (s : PyIsoState) (p : String) :
    (rm_file s p).2.isSome → (rm_file s p).1 = s := by
  unfold rm_file
  split
  · exact fun _ => rfl
  · split
    · exact fun _ => rfl
    · split
      · exact fun _ => rfl
      · split
        · exact fun _ => rfl
        · intro hcon; simp at hcon

theorem rm_directory_error_unchanged (s : PyIsoState)
    (hj : s.joliet_vd = none) (p : String) (jp : Option String) :
    (rm_directory s p jp).2.isSome → (rm_directory s p jp).1 = s := by
  unfold rm_directory
  repeat' split
  all_goals intro hcon
  all_goals first
    | rfl
    | simp_all

theorem add_symlink_error_unchanged (s : PyIsoState)
    (p n t : String) :
    (add_symlink s p n t).2.isSome → (add_symlink s p n t).1 = s := by
  unfold add_symlink
  repeat' split
  all_goals intro hcon
  all_goals first
    | rfl
    | simp_all

theorem add_fp_error_unchanged (s : PyIsoState)
    (hj : s.joliet_vd = none) (len : Nat) (p : String)
    (rrp jp : Option String) :
    (add_fp s len p rrp jp).2.isSome → (add_fp s len p rrp jp).1 = s := by
  unfold add_fp
  repeat' split
  all_goals intro hcon
  all_goals first
    | rfl
    | simp_all

theorem add_directory_error_unchanged (s : PyIsoState)
    (hj : s.joliet_vd = none) (p : String) (rrp jp : Option String) :
    (add_directory s p rrp jp).2.isSome → (add_directory s p rrp jp).1 = s := by
  unfold add_directory
  repeat' split
  all_goals intro hcon
  all_goals first
    | rfl
    | simp_all

/-- Claim C3 (amended): on error, `rm_file` and `add_symlink` always
leave the state unchanged, and `rm_directory`, `add_fp` and
`add_directory` leave it unchanged on images without a Joliet hierarchy;
`add_eltorito` (and the Joliet halves of the other mutations) may be
partially applied, as the counterexample shows. -/
theorem claim_C3_mutation_atomicity (s : PyIsoState)
    (hj : s.joliet_vd = none) :
    (∀ p, (rm_file s p).2.isSome → (rm_file s p).1 = s) ∧
    (∀ p jp, (rm_directory s p jp).2.isSome → (rm_directory s p jp).1 = s) ∧
    (∀ p n t, (add_symlink s p n t).2.isSome → (add_symlink s p n t).1 = s) ∧
    (∀ len p rrp jp,
      (add_fp s len p rrp jp).2.isSome → (add_fp s len p rrp jp).1 = s) ∧
    (∀ p rrp jp,
      (add_directory s p rrp jp).2.isSome → (add_directory s p rrp jp).1 = s)
    :=
  ⟨fun p => rm_file_error_unchanged s p,
   fun p jp => rm_directory_error_unchanged s hj p jp,
   fun p n t => add_symlink_error_unchanged s p n t,
   fun len p rrp jp => add_fp_error_unchanged s hj len p rrp jp,
   fun p rrp jp => add_directory_error_unchanged s hj p rrp jp⟩

/-- Witness for claim C3: removing a missing file from the default image
raises and leaves the state unchanged. -/
theorem claim_C3_mutation_atomicity_witness :
    newDefaultState.joliet_vd = none ∧
    (rm_file newDefaultState "/NOPE.;1").2.isSome = true ∧
    (rm_file newDefaultState "/NOPE.;1").1 = newDefaultState :=
  ⟨rfl, by decide,
    (claim_C3_mutation_atomicity newDefaultState rfl).1 "/NOPE.;1" (by decide)⟩

/-- Counterexample for claim C3 as stated: `add_eltorito` on an image
with a boot file raises on an invalid boot-catalog name, but only after
appending the El Torito Boot Record, so the caller observes a partially
applied mutation that no reshuffle failure caused. -/
theorem claim_C3_addeltorito_partial :
    (add_eltorito sampleBootState "/BOOT.;1" "/AAAAAAAAAAAA" "boot.cat"
      "/boot.cat").2.isSome = true ∧
    (add_eltorito sampleBootState "/BOOT.;1" "/AAAAAAAAAAAA" "boot.cat"
      "/boot.cat").1.brs.length ≠ sampleBootState.brs.length := by
  decide

/-- Claim C7: a Boot Record with the El Torito boot-system identifier
fails to parse exactly when a catalog was already parsed or the record is
not at extent 17 (others are skipped without error), and `add_eltorito`
raises, changing nothing, when the image already has an El Torito boot
record. -/
theorem claim_C7_eltorito_placement :
    (∀ ident already ext,
      ((∃ e, check_and_parse_eltorito ident already ext = .error e) ↔
        (ident = elToritoIdent ∧ (already = true ∨ ext ≠ 17)))) ∧
    (∀ s bf bc rrbc jbc, s.initialized = true →
      s.eltorito_boot_catalog.isSome = true →
      add_eltorito s bf bc rrbc jbc
        = (s, some "This ISO already has an El Torito Boot Record")) := by
  constructor
  · intro ident already ext
    unfold check_and_parse_eltorito
    split_ifs with h1 h2 h3 <;> simp_all
  · intro s bf bc rrbc jbc hinit hcat
    unfold add_eltorito
    rw [if_neg (by simp [hinit]), if_pos hcat]

/-- Witness for claim C7: a misplaced El Torito Boot Record at extent 18
raises, and a second `add_eltorito` on a concrete El Torito image raises
leaving the state unchanged. -/
theorem claim_C7_eltorito_placement_witness :
    (∃ e, check_and_parse_eltorito elToritoIdent false 18 = .error e) ∧
    sampleEltoritoState.initialized = true ∧
    sampleEltoritoState.eltorito_boot_catalog.isSome = true ∧
    add_eltorito sampleEltoritoState "/BOOT.;1" "/BOOT.CAT;1" "boot.cat"
        "/boot.cat"
      = (sampleEltoritoState,
          some "This ISO already has an El Torito Boot Record") :=
  ⟨(claim_C7_eltorito_placement.1 elToritoIdent false 18).2
      ⟨rfl, Or.inr (by decide)⟩,
   by decide, by decide,
   claim_C7_eltorito_placement.2 sampleEltoritoState _ _ _ _ (by decide)
     (by decide)⟩

theorem add_child_file_ident (d c : DirRecord) :
    (d.add_child c).file_ident = d.file_ident := by
  unfold DirRecord.add_child
  cases d with
  | mk i dd l e r cs =>
    split_ifs with h1 h2
    · simp [DirRecord.setChildren, DirRecord.file_ident]
    · cases cs with
      | nil => simp [DirRecord.setChildren, DirRecord.file_ident,
          DirRecord.children]
      | cons x rest =>
        simp only [DirRecord.children]
        split_ifs <;> simp [DirRecord.setChildren, DirRecord.file_ident]
    · simp [DirRecord.setChildren, DirRecord.file_ident]

theorem add_child_rock_ridge (d c : DirRecord) :
    (d.add_child c).rock_ridge = d.rock_ridge := by
  unfold DirRecord.add_child
  cases d with
  | mk i dd l e r cs =>
    split_ifs with h1 h2
    · simp [DirRecord.setChildren, DirRecord.rock_ridge]
    · cases cs with
      | nil => simp [DirRecord.setChildren, DirRecord.rock_ridge,
          DirRecord.children]
      | cons x rest =>
        simp only [DirRecord.children]
        split_ifs <;> simp [DirRecord.setChildren, DirRecord.rock_ridge]
    · simp [DirRecord.setChildren, DirRecord.rock_ridge]

theorem mem_insertChildSorted_self (c : DirRecord) (l : List DirRecord) :
    c ∈ insertChildSorted c l := by
  induction l with
  | nil => simp [insertChildSorted]
  | cons x xs ih =>
    unfold insertChildSorted
    split_ifs <;> simp [ih]

theorem mem_insertChildSorted_of_mem (c x : DirRecord) (l : List DirRecord)
    (h : x ∈ l) : x ∈ insertChildSorted c l := by
  induction l with
  | nil => simp at h
  | cons y ys ih =>
    unfold insertChildSorted
    rcases List.mem_cons.1 h with h1 | h2
    · split_ifs <;> simp [h1]
    · split_ifs <;> simp [ih h2, h2]

theorem mem_add_child_self (d c : DirRecord) :
    c ∈ (d.add_child c).children := by
  unfold DirRecord.add_child
  cases d with
  | mk i dd l e r cs =>
    split_ifs with h1 h2
    · simp [DirRecord.setChildren, DirRecord.children]
    · cases cs with
      | nil => simp [DirRecord.setChildren, DirRecord.children]
      | cons x rest =>
        simp only [DirRecord.children]
        split_ifs <;> simp [DirRecord.setChildren, DirRecord.children]
    · simp only [DirRecord.setChildren, DirRecord.children]
      exact mem_insertChildSorted_self c cs

theorem mem_add_child_of_mem (d c x : DirRecord)
    (h : x ∈ d.children) : x ∈ (d.add_child c).children := by
  unfold DirRecord.add_child
  cases d with
  | mk i dd l e r cs =>
    simp only [DirRecord.children] at h
    split_ifs with h1 h2
    · simp [DirRecord.setChildren, DirRecord.children, h]
    · cases cs with
      | nil => simp at h
      | cons y rest =>
        simp only [DirRecord.children]
        rcases List.mem_cons.1 h with hx | hx
        · split_ifs <;> simp [DirRecord.setChildren, DirRecord.children, hx]
        · split_ifs <;> simp [DirRecord.setChildren, DirRecord.children, hx]
    · simp only [DirRecord.setChildren, DirRecord.children]
      exact mem_insertChildSorted_of_mem c x cs h

theorem childNamed_eq_of_ident (b : String) (c d : DirRecord)
    (h : c.file_ident = d.file_ident) : childNamed b c = childNamed b d := by
  unfold childNamed DirRecord.is_dot DirRecord.is_dotdot
  rw [h]

theorem find?_childNamed_insert (b : String) (c : DirRecord)
    (l : List DirRecord) (hpc : childNamed b c = false) :
    (insertChildSorted c l).find? (childNamed b) = l.find? (childNamed b) := by
  induction l with
  | nil => simp [insertChildSorted, List.find?, hpc]
  | cons y ys ih =>
    unfold insertChildSorted
    split_ifs <;> simp [List.find?_cons, hpc] <;>
      cases hy : childNamed b y <;> simp [hy, ih]

theorem updateAtPath_file_ident (f : DirRecord → DirRecord)
    (hf : ∀ t, (f t).file_ident = t.file_ident) (d : DirRecord)
    (p : List String) : (updateAtPath d p f).file_ident = d.file_ident := by
  cases p with
  | nil => exact hf d
  | cons a as =>
    cases d with
    | mk i dd l e r cs => simp [updateAtPath, DirRecord.setChildren, DirRecord.file_ident]

theorem find?_childNamed_map_update (b a : String) (as : List String)
    (f : DirRecord → DirRecord) (hf : ∀ t, (f t).file_ident = t.file_ident)
    (l : List DirRecord) :
    (l.map (fun c => if childNamed a c then updateAtPath c as f else c)).find?
        (childNamed b)
      = (l.find? (childNamed b)).map
          (fun c => if childNamed a c then updateAtPath c as f else c) := by
  induction l with
  | nil => simp
  | cons c cs ih =>
    simp only [List.map_cons, List.find?_cons]
    have hid : (if childNamed a c then updateAtPath c as f else c).file_ident
        = c.file_ident := by
      split_ifs
      · exact updateAtPath_file_ident f hf c as
      · rfl
    rw [childNamed_eq_of_ident b _ c hid]
    cases hc : childNamed b c
    · simp [hc, ih]
    · simp [hc]

theorem getAtPath_updateAtPath_self (f : DirRecord → DirRecord)
    (hf : ∀ t, (f t).file_ident = t.file_ident) (T : DirRecord)
    (p : List String) :
    getAtPath (updateAtPath T p f) p = (getAtPath T p).map f := by
  induction p generalizing T with
  | nil => simp [updateAtPath, getAtPath]
  | cons a as ih =>
    cases T with
    | mk i dd l e r cs =>
      simp only [updateAtPath, getAtPath, DirRecord.setChildren,
        DirRecord.children]
      rw [find?_childNamed_map_update a a as f hf cs]
      cases hfind : cs.find? (childNamed a) with
      | none => simp
      | some c =>
        have hc : childNamed a c = true := List.find?_some hfind
        simp [hc, ih c]

theorem getAtPath_updateAtPath_ne (f : DirRecord → DirRecord)
    (hf : ∀ t, (f t).file_ident = t.file_ident) (T : DirRecord)
    (a b : String) (as bs : List String) (hne : b ≠ a) :
    getAtPath (updateAtPath T (a :: as) f) (b :: bs)
      = getAtPath T (b :: bs) := by
  cases T with
  | mk i dd l e r cs =>
    simp only [updateAtPath, getAtPath, DirRecord.setChildren,
      DirRecord.children]
    rw [find?_childNamed_map_update b a as f hf cs]
    cases hfind : cs.find? (childNamed b) with
    | none => simp
    | some c =>
      have hc : childNamed b c = true := List.find?_some hfind
      have hca : childNamed a c = false := by
        unfold childNamed at hc ⊢
        simp only [Bool.decide_and] at hc ⊢
        by_contra hcon
        simp only [Bool.not_eq_false] at hcon
        have h1 : c.file_ident = b := by
          by_contra hne2
          simp [hne2] at hc
        have h2 : c.file_ident = a := by
          by_contra hne2
          simp [hne2] at hcon
        exact hne (h1 ▸ h2)
      simp [hca]

theorem getAtPath_add_child_ne (d c : DirRecord) (b : String)
    (bs : List String) (hpc : childNamed b c = false) :
    getAtPath (d.add_child c) (b :: bs) = getAtPath d (b :: bs) := by
  unfold DirRecord.add_child
  cases d with
  | mk i dd l e r cs =>
    split_ifs with h1 h2
    · simp [getAtPath, DirRecord.setChildren, DirRecord.children,
        List.find?_cons, hpc]
    · cases cs with
      | nil => simp [getAtPath, DirRecord.setChildren, DirRecord.children,
          List.find?_cons, hpc]
      | cons y rest =>
        simp only [DirRecord.children]
        split_ifs <;>
          simp [getAtPath, DirRecord.setChildren, DirRecord.children,
            List.find?_cons, hpc]
    · simp only [getAtPath, DirRecord.setChildren, DirRecord.children]
      rw [find?_childNamed_insert b c cs hpc]

theorem setChildren_children (d : DirRecord) (cs : List DirRecord) :
    (d.setChildren cs).children = cs := by
  cases d with
  | mk i dd l e r cs0 => rfl

theorem updateAtPath_children_cons (d : DirRecord) (a : String)
    (as : List String) (f : DirRecord → DirRecord) :
    (updateAtPath d (a :: as) f).children
      = d.children.map (fun c => if childNamed a c then updateAtPath c as f
          else c) := by
  rw [updateAtPath, setChildren_children]

theorem relocated_tree_mem (root rrMovedFull fake real : DirRecord)
    (q : String) (qs : List String)
    (hq : childNamed q rrMovedFull = false)
    (hrm : childNamed "RR_MOVED" rrMovedFull = true) :
    rrMovedFull.add_child real ∈
      (updateAtPath (updateAtPath (root.add_child rrMovedFull) (q :: qs)
        (fun p => p.add_child fake)) ["RR_MOVED"]
        (fun p => p.add_child real)).children := by
  rw [updateAtPath_children_cons]
  have h1 : rrMovedFull ∈ (updateAtPath (root.add_child rrMovedFull)
      (q :: qs) (fun p => p.add_child fake)).children := by
    rw [updateAtPath_children_cons]
    have h0 : rrMovedFull ∈ (root.add_child rrMovedFull).children :=
      mem_add_child_self _ _
    have h2 := List.mem_map_of_mem
      (fun c => if childNamed q c then
        updateAtPath c qs (fun p => p.add_child fake) else c) h0
    simpa [hq] using h2
  have h3 := List.mem_map_of_mem
    (fun c => if childNamed "RR_MOVED" c then
      updateAtPath c [] (fun p => p.add_child real) else c) h1
  simpa [hrm, updateAtPath] using h3

theorem relocated_tree_get (root rrMovedFull fake real parentRec : DirRecord)
    (q : String) (qs : List String)
    (hq : q ≠ "RR_MOVED")
    (hqrm : childNamed q rrMovedFull = false)
    (hget : getAtPath root (q :: qs) = some parentRec) :
    getAtPath (updateAtPath (updateAtPath (root.add_child rrMovedFull)
        (q :: qs) (fun p => p.add_child fake)) ["RR_MOVED"]
        (fun p => p.add_child real)) (q :: qs)
      = some (parentRec.add_child fake) := by
  rw [getAtPath_updateAtPath_ne (fun p => p.add_child real)
    (fun t => add_child_file_ident t real) _ "RR_MOVED" q [] qs hq]
  rw [getAtPath_updateAtPath_self (fun p => p.add_child fake)
    (fun t => add_child_file_ident t fake)]
  rw [getAtPath_add_child_ne root rrMovedFull q qs hqrm]
  rw [hget]
  rfl

theorem add_directory_rr_relocation
    (s : PyIsoState) (iso_path rrp : String) (d : Nat)
    (name q : String) (qs : List String) (parentRec : DirRecord) (e0 : String)
    (hinit : s.initialized = true)
    (hrr : s.rock_ridge = true)
    (hjol : s.joliet_vd = none)
    (hsp : (_split_path iso_path).map List.length = Except.ok d)
    (hd8 : d % 8 = 0)
    (hnp : _name_and_parent_from_path true s.pvd.root iso_path
      = .ok (name, q :: qs, parentRec))
    (hname : check_iso9660_directory name.data s.interchange_level = .ok ())
    (hfind : _find_record true s.pvd.root "/RR_MOVED" = .error e0)
    (hq : q ≠ "RR_MOVED")
    (hget : getAtPath s.pvd.root (q :: qs) = some parentRec)
    (hn1 : name ≠ dotIdent) (hn2 : name ≠ dotdotIdent) :
    (add_directory s iso_path (some rrp) none).2 = none ∧
    (∃ m ∈ (add_directory s iso_path (some rrp) none).1.pvd.root.children,
      m.file_ident = "RR_MOVED" ∧
      ∃ rdir ∈ m.children, rdir.file_ident = name ∧
        rdir.rock_ridge.map RRInfo.relocated = some true ∧
        ∃ dd ∈ rdir.children, dd.is_dotdot = true ∧
          dd.rock_ridge.map RRInfo.hasParentLink = some true) ∧
    (∃ pnode,
      getAtPath (add_directory s iso_path (some rrp) none).1.pvd.root
        (q :: qs) = some pnode ∧
      ∃ fk ∈ pnode.children, fk.file_ident = name ∧
        fk.rock_ridge.map RRInfo.hasChildLink = some true ∧
        fk.rock_ridge.map RRInfo.relocated = some false) := by
  have hrm : childNamed "RR_MOVED" (((DirRecord.new_dir "RR_MOVED" s.pvd.seqnum true "rr_moved"
        s.pvd.log_block_size false false).add_child
      (DirRecord.new_dot s.pvd.seqnum true s.pvd.log_block_size)).add_child
      (DirRecord.new_dotdot s.pvd.seqnum true s.pvd.log_block_size false)) = true := by
    unfold childNamed DirRecord.is_dot DirRecord.is_dotdot
    rw [add_child_file_ident, add_child_file_ident]
    simp [DirRecord.new_dir, DirRecord.file_ident, dotIdent, dotdotIdent]
  have hqrm : childNamed q (((DirRecord.new_dir "RR_MOVED" s.pvd.seqnum true "rr_moved"
        s.pvd.log_block_size false false).add_child
      (DirRecord.new_dot s.pvd.seqnum true s.pvd.log_block_size)).add_child
      (DirRecord.new_dotdot s.pvd.seqnum true s.pvd.log_block_size false)) = false := by
    unfold childNamed DirRecord.is_dot DirRecord.is_dotdot
    rw [add_child_file_ident, add_child_file_ident]
    simp [DirRecord.new_dir, DirRecord.file_ident, Ne.symm hq]
  unfold add_directory find_or_create_rr_moved
  simp only [hinit, hrr, hjol, hsp, hd8, hnp, hname, hfind,
    Bool.not_true, Bool.true_and, Bool.and_self, beq_self_eq_true,
    Nat.zero_mod, doReshuffle, not_true, not_false_iff, and_true, true_and,
    and_false, false_and, if_true, if_false, ite_true, ite_false,
    reduceCtorEq, Option.isSome_none, Option.isSome_some,
    HeaderVD.add_entry, HeaderVD.add_path_table_record,
    Bool.false_eq_true, not_false_eq_true, decide_True, decide_False]
  refine ⟨?_, ?_⟩
  · refine ⟨(((DirRecord.new_dir "RR_MOVED" s.pvd.seqnum true "rr_moved"
        s.pvd.log_block_size false false).add_child
      (DirRecord.new_dot s.pvd.seqnum true s.pvd.log_block_size)).add_child
      (DirRecord.new_dotdot s.pvd.seqnum true s.pvd.log_block_size false)).add_child
      (((DirRecord.new_dir name s.pvd.seqnum true (rrNameOf (some rrp))
        s.pvd.log_block_size false true).add_child
      (DirRecord.new_dot s.pvd.seqnum true s.pvd.log_block_size)).add_child
      ((DirRecord.new_dotdot s.pvd.seqnum true s.pvd.log_block_size
        true).setParentLink)),
      relocated_tree_mem s.pvd.root (((DirRecord.new_dir "RR_MOVED" s.pvd.seqnum true "rr_moved"
        s.pvd.log_block_size false false).add_child
      (DirRecord.new_dot s.pvd.seqnum true s.pvd.log_block_size)).add_child
      (DirRecord.new_dotdot s.pvd.seqnum true s.pvd.log_block_size false))
        (((DirRecord.new_dir name s.pvd.seqnum true (rrNameOf (some rrp))
        s.pvd.log_block_size true false).add_child
      (DirRecord.new_dot s.pvd.seqnum true s.pvd.log_block_size)).add_child
      (DirRecord.new_dotdot s.pvd.seqnum true s.pvd.log_block_size false))
        (((DirRecord.new_dir name s.pvd.seqnum true (rrNameOf (some rrp))
        s.pvd.log_block_size false true).add_child
      (DirRecord.new_dot s.pvd.seqnum true s.pvd.log_block_size)).add_child
      ((DirRecord.new_dotdot s.pvd.seqnum true s.pvd.log_block_size
        true).setParentLink)) q qs hqrm hrm, ?_, ?_⟩
    · rw [add_child_file_ident, add_child_file_ident, add_child_file_ident]
      rfl
    · refine ⟨(((DirRecord.new_dir name s.pvd.seqnum true (rrNameOf (some rrp))
        s.pvd.log_block_size false true).add_child
      (DirRecord.new_dot s.pvd.seqnum true s.pvd.log_block_size)).add_child
      ((DirRecord.new_dotdot s.pvd.seqnum true s.pvd.log_block_size
        true).setParentLink)), mem_add_child_self _ _, ?_, ?_, ?_⟩
      · rw [add_child_file_ident, add_child_file_ident]
        rfl
      · rw [add_child_rock_ridge, add_child_rock_ridge]
        simp [DirRecord.new_dir, DirRecord.rock_ridge]
      · refine ⟨(DirRecord.new_dotdot s.pvd.seqnum true s.pvd.log_block_size
          true).setParentLink, mem_add_child_self _ _, ?_, ?_⟩
        · simp [DirRecord.new_dotdot, DirRecord.setParentLink,
            DirRecord.is_dotdot, DirRecord.file_ident]
        · simp [DirRecord.new_dotdot, DirRecord.setParentLink,
            DirRecord.rock_ridge]
  · refine ⟨parentRec.add_child (((DirRecord.new_dir name s.pvd.seqnum true (rrNameOf (some rrp))
        s.pvd.log_block_size true false).add_child
      (DirRecord.new_dot s.pvd.seqnum true s.pvd.log_block_size)).add_child
      (DirRecord.new_dotdot s.pvd.seqnum true s.pvd.log_block_size false)),
      relocated_tree_get s.pvd.root (((DirRecord.new_dir "RR_MOVED" s.pvd.seqnum true "rr_moved"
        s.pvd.log_block_size false false).add_child
      (DirRecord.new_dot s.pvd.seqnum true s.pvd.log_block_size)).add_child
      (DirRecord.new_dotdot s.pvd.seqnum true s.pvd.log_block_size false))
        (((DirRecord.new_dir name s.pvd.seqnum true (rrNameOf (some rrp))
        s.pvd.log_block_size true false).add_child
      (DirRecord.new_dot s.pvd.seqnum true s.pvd.log_block_size)).add_child
      (DirRecord.new_dotdot s.pvd.seqnum true s.pvd.log_block_size false))
        (((DirRecord.new_dir name s.pvd.seqnum true (rrNameOf (some rrp))
        s.pvd.log_block_size false true).add_child
      (DirRecord.new_dot s.pvd.seqnum true s.pvd.log_block_size)).add_child
      ((DirRecord.new_dotdot s.pvd.seqnum true s.pvd.log_block_size
        true).setParentLink)) parentRec q qs hq hqrm hget,
      (((DirRecord.new_dir name s.pvd.seqnum true (rrNameOf (some rrp))
        s.pvd.log_block_size true false).add_child
      (DirRecord.new_dot s.pvd.seqnum true s.pvd.log_block_size)).add_child
      (DirRecord.new_dotdot s.pvd.seqnum true s.pvd.log_block_size false)), mem_add_child_self _ _, ?_, ?_, ?_⟩
    · rw [add_child_file_ident, add_child_file_ident]
      rfl
    · rw [add_child_rock_ridge, add_child_rock_ridge]
      simp [DirRecord.new_dir, DirRecord.rock_ridge]
    · rw [add_child_rock_ridge, add_child_rock_ridge]
      simp [DirRecord.new_dir, DirRecord.rock_ridge]

theorem check_path_depth_deep (iso_path : String)
    (h : 7 < (pySplitSlash iso_path).tail.length) :
    ∃ e, _check_path_depth iso_path = .error e := by
  by_cases h1 : pyStartsWithSlash iso_path = true
  · refine ⟨"Directory levels too deep (maximum is 7)", ?_⟩
    simp only [_check_path_depth, _split_path, h1, not_true_eq_false,
      if_false, ite_false]
    rw [if_pos h]
  · refine ⟨"Must be a path starting with /", ?_⟩
    simp only [_check_path_depth, _split_path, h1, not_false_eq_true,
      if_true, ite_true, Bool.false_eq_true]

theorem add_fp_depth_error (s : PyIsoState) (len : Nat) (iso_path : String)
    (rrp jp : Option String) (hrr : s.rock_ridge = false)
    (hdeep : 7 < (pySplitSlash iso_path).tail.length) :
    (add_fp s len iso_path rrp jp).1 = s ∧
    (add_fp s len iso_path rrp jp).2.isSome = true := by
  obtain ⟨e, he⟩ := check_path_depth_deep iso_path hdeep
  unfold add_fp
  repeat' split
  all_goals first
    | exact ⟨rfl, rfl⟩
    | simp_all

theorem add_directory_depth_error (s : PyIsoState) (iso_path : String)
    (rrp jp : Option String) (hrr : s.rock_ridge = false)
    (hdeep : 7 < (pySplitSlash iso_path).tail.length) :
    (add_directory s iso_path rrp jp).1 = s ∧
    (add_directory s iso_path rrp jp).2.isSome = true := by
  obtain ⟨e, he⟩ := check_path_depth_deep iso_path hdeep
  unfold add_directory
  repeat' split
  all_goals first
    | exact ⟨rfl, rfl⟩
    | simp_all

/-- Claim C5: with Rock Ridge off, `add_fp` and `add_directory` raise
(leaving the state unchanged) on any iso_path more than 7 levels deep;
with Rock Ridge on, `add_directory` at a depth that is a multiple of 8
(here in the fresh-`/RR_MOVED` case, with the resolved parent strictly
below the root and a name distinct from the sentinels) succeeds, placing
under `/RR_MOVED` the real, RE-marked record whose ".." carries the
parent link, and under the original parent the fake record carrying the
child link. -/
theorem claim_C5_depth_and_relocation :
    (∀ s len iso_path rrp jp, s.rock_ridge = false →
      7 < (pySplitSlash iso_path).tail.length →
      (add_fp s len iso_path rrp jp).1 = s ∧
      (add_fp s len iso_path rrp jp).2.isSome = true) ∧
    (∀ s iso_path rrp jp, s.rock_ridge = false →
      7 < (pySplitSlash iso_path).tail.length →
      (add_directory s iso_path rrp jp).1 = s ∧
      (add_directory s iso_path rrp jp).2.isSome = true) ∧
    (∀ (s : PyIsoState) (iso_path rrp : String) (d : Nat)
      (name q : String) (qs : List String) (parentRec : DirRecord)
      (e0 : String),
      s.initialized = true → s.rock_ridge = true → s.joliet_vd = none →
      (_split_path iso_path).map List.length = Except.ok d → d % 8 = 0 →
      _name_and_parent_from_path true s.pvd.root iso_path
        = .ok (name, q :: qs, parentRec) →
      check_iso9660_directory name.data s.interchange_level = .ok () →
      _find_record true s.pvd.root "/RR_MOVED" = .error e0 →
      q ≠ "RR_MOVED" →
      getAtPath s.pvd.root (q :: qs) = some parentRec →
      name ≠ dotIdent → name ≠ dotdotIdent →
      ((add_directory s iso_path (some rrp) none).2 = none ∧
      (∃ m ∈ (add_directory s iso_path (some rrp) none).1.pvd.root.children,
        m.file_ident = "RR_MOVED" ∧
        ∃ rdir ∈ m.children, rdir.file_ident = name ∧
          rdir.rock_ridge.map RRInfo.relocated = some true ∧
          ∃ dd ∈ rdir.children, dd.is_dotdot = true ∧
            dd.rock_ridge.map RRInfo.hasParentLink = some true) ∧
      (∃ pnode,
        getAtPath (add_directory s iso_path (some rrp) none).1.pvd.root
          (q :: qs) = some pnode ∧
        ∃ fk ∈ pnode.children, fk.file_ident = name ∧
          fk.rock_ridge.map RRInfo.hasChildLink = some true ∧
          fk.rock_ridge.map RRInfo.relocated = some false))) :=
  ⟨fun s len iso_path rrp jp hrr hdeep =>
      add_fp_depth_error s len iso_path rrp jp hrr hdeep,
   fun s iso_path rrp jp hrr hdeep =>
      add_directory_depth_error s iso_path rrp jp hrr hdeep,
   fun s iso_path rrp d name q qs parentRec e0 hinit hrr hjol hsp hd8 hnp
      hname hfind hq hget hn1 hn2 =>
      add_directory_rr_relocation s iso_path rrp d name q qs parentRec e0
        hinit hrr hjol hsp hd8 hnp hname hfind hq hget hn1 hn2⟩

/-- Witness for claim C5: a depth-8 `add_fp` and `add_directory` on the
default non-Rock-Ridge image raise unchanged, and a depth-8
`add_directory` on a concrete Rock Ridge chain image relocates the new
directory under `/RR_MOVED`. -/
theorem claim_C5_depth_and_relocation_witness :
    ((add_fp newDefaultState 4 "/A/B/C/D/E/F/G/H.;1" none none).1
        = newDefaultState ∧
      (add_fp newDefaultState 4 "/A/B/C/D/E/F/G/H.;1" none none).2.isSome
        = true) ∧
    ((add_directory newDefaultState "/A/B/C/D/E/F/G/H" none none).1
        = newDefaultState ∧
      (add_directory newDefaultState "/A/B/C/D/E/F/G/H" none none).2.isSome
        = true) ∧
    ((add_directory sampleDeepState "/D/D/D/D/D/D/D/NEWD" (some "newd")
        none).2 = none ∧
     (∃ m ∈ (add_directory sampleDeepState "/D/D/D/D/D/D/D/NEWD"
          (some "newd") none).1.pvd.root.children,
        m.file_ident = "RR_MOVED" ∧
        ∃ rdir ∈ m.children, rdir.file_ident = "NEWD" ∧
          rdir.rock_ridge.map RRInfo.relocated = some true ∧
          ∃ dd ∈ rdir.children, dd.is_dotdot = true ∧
            dd.rock_ridge.map RRInfo.hasParentLink = some true) ∧
     (∃ pnode,
        getAtPath (add_directory sampleDeepState "/D/D/D/D/D/D/D/NEWD"
          (some "newd") none).1.pvd.root
          ("D" :: ["D", "D", "D", "D", "D", "D"]) = some pnode ∧
        ∃ fk ∈ pnode.children, fk.file_ident = "NEWD" ∧
          fk.rock_ridge.map RRInfo.hasChildLink = some true ∧
          fk.rock_ridge.map RRInfo.relocated = some false)) :=
  ⟨claim_C5_depth_and_relocation.1 newDefaultState 4 "/A/B/C/D/E/F/G/H.;1"
      none none rfl (by decide),
   claim_C5_depth_and_relocation.2.1 newDefaultState "/A/B/C/D/E/F/G/H"
      none none rfl (by decide),
   claim_C5_depth_and_relocation.2.2 sampleDeepState "/D/D/D/D/D/D/D/NEWD"
      "newd" 8 "NEWD" "D" ["D", "D", "D", "D", "D", "D"] (sampleChain 0)
      "Could not find path" rfl rfl rfl (by rfl) (by decide) (by rfl)
      (by decide) (by rfl) (by decide) (by rfl) (by decide) (by decide)⟩

theorem pySplit_ne_nil (c : Char) (l : List Char) : pySplit c l ≠ [] := by
  induction l with
  | nil => simp [pySplit]
  | cons x rest ih =>
    simp only [pySplit]
    split_ifs
    · simp
    · cases h : pySplit c rest with
      | nil => exact absurd h ih
      | cons r rs => simp

theorem pySplit_singleton_of_not_mem (c : Char) (l : List Char)
    (h : c ∉ l) : pySplit c l = [l] := by
  induction l with
  | nil => rfl
  | cons x rest ih =>
    simp only [List.mem_cons, not_or] at h
    simp only [pySplit]
    rw [if_neg (fun hx => h.1 hx.symm), ih h.2]

theorem two_le_pySplit_length_of_mem (c : Char) (l : List Char)
    (h : c ∈ l) : 2 ≤ (pySplit c l).length := by
  induction l with
  | nil => cases h
  | cons x rest ih =>
    simp only [pySplit]
    by_cases hx : x = c
    · rw [if_pos hx]
      cases hp : pySplit c rest with
      | nil => exact absurd hp (pySplit_ne_nil c rest)
      | cons r rs => simp
    · rw [if_neg hx]
      have hm : c ∈ rest := by
        rcases List.mem_cons.mp h with h1 | h1
        · exact absurd h1.symm hx
        · exact h1
      have h2 := ih hm
      cases hp : pySplit c rest with
      | nil => exact absurd hp (pySplit_ne_nil c rest)
      | cons r rs =>
        rw [hp] at h2
        simpa using h2

theorem pyJoin_pySplit (c : Char) (l : List Char) :
    pyJoin c (pySplit c l) = l := by
  induction l with
  | nil => rfl
  | cons x rest ih =>
    simp only [pySplit]
    by_cases hx : x = c
    · rw [if_pos hx]
      cases hp : pySplit c rest with
      | nil => exact absurd hp (pySplit_ne_nil c rest)
      | cons r rs =>
        rw [hp] at ih
        subst hx
        simpa [pyJoin] using ih
    · rw [if_neg hx]
      cases hp : pySplit c rest with
      | nil => exact absurd hp (pySplit_ne_nil c rest)
      | cons r rs =>
        rw [hp] at ih
        cases rs with
        | nil =>
          simp only [pyJoin] at ih ⊢
          rw [ih]
        | cons y ys =>
          simp only [pyJoin] at ih ⊢
          rw [List.cons_append, ih]

theorem firstSemiSplit_none_split (l : List Char)
    (h : firstSemiSplit l = none) : pySplit ';' l = [l] := by
  induction l with
  | nil => rfl
  | cons x rest ih =>
    simp only [firstSemiSplit] at h
    by_cases hx : x = ';'
    · rw [if_pos hx] at h; cases h
    · rw [if_neg hx] at h
      cases hf : firstSemiSplit rest with
      | some p => rw [hf] at h; obtain ⟨b, a⟩ := p; cases h
      | none =>
        simp only [pySplit, if_neg hx, ih hf]

theorem firstSemiSplit_some_split (l : List Char) {b a : List Char}
    (h : firstSemiSplit l = some (b, a)) :
    pySplit ';' l = b :: pySplit ';' a := by
  induction l generalizing b with
  | nil => cases h
  | cons x rest ih =>
    simp only [firstSemiSplit] at h
    by_cases hx : x = ';'
    · rw [if_pos hx] at h
      simp only [Option.some.injEq, Prod.mk.injEq] at h
      obtain ⟨rfl, rfl⟩ := h
      simp [pySplit, hx]
    · rw [if_neg hx] at h
      cases hf : firstSemiSplit rest with
      | none => rw [hf] at h; cases h
      | some p =>
        obtain ⟨b', a'⟩ := p
        rw [hf] at h
        simp only [Option.some.injEq, Prod.mk.injEq] at h
        obtain ⟨rfl, rfl⟩ := h
        have ih' := ih hf
        cases hp : pySplit ';' rest with
        | nil => exact absurd hp (pySplit_ne_nil ';' rest)
        | cons r rs =>
          rw [hp] at ih'
          obtain ⟨rfl, rfl⟩ : r = b' ∧ rs = pySplit ';' a' := by
            injection ih' with h1 h2; exact ⟨h1, h2⟩
          simp [pySplit, if_neg hx, hp]

theorem lastDotSplit_none_split (m : List Char)
    (h : lastDotSplit m = none) : pySplit '.' m = [m] := by
  induction m with
  | nil => rfl
  | cons x rest ih =>
    simp only [lastDotSplit] at h
    cases hf : lastDotSplit rest with
    | some p => rw [hf] at h; obtain ⟨n, e⟩ := p; cases h
    | none =>
      rw [hf] at h
      by_cases hx : x = '.'
      · rw [if_pos hx] at h; cases h
      · simp only [pySplit, if_neg hx, ih hf]

theorem lastDotSplit_some_split (m : List Char) {n e : List Char}
    (h : lastDotSplit m = some (n, e)) :
    pySplit '.' m = pySplit '.' n ++ [e] := by
  induction m generalizing n with
  | nil => cases h
  | cons x rest ih =>
    simp only [lastDotSplit] at h
    cases hf : lastDotSplit rest with
    | some p =>
      obtain ⟨n', e'⟩ := p
      rw [hf] at h
      simp only [Option.some.injEq, Prod.mk.injEq] at h
      obtain ⟨rfl, rfl⟩ := h
      have ih' := ih hf
      by_cases hx : x = '.'
      · simp [pySplit, hx, ih']
      · cases hpn : pySplit '.' n' with
        | nil => exact absurd hpn (pySplit_ne_nil '.' n')
        | cons r rs =>
          rw [hpn] at ih'
          simp only [pySplit, if_neg hx, ih', hpn]
          simp
    | none =>
      rw [hf] at h
      by_cases hx : x = '.'
      · rw [if_pos hx] at h
        simp only [Option.some.injEq, Prod.mk.injEq] at h
        obtain ⟨rfl, rfl⟩ := h
        subst hx
        simp [pySplit, lastDotSplit_none_split rest hf]
      · rw [if_neg hx] at h; cases h

theorem getLast!_chunks_concat (xs : List (List Char)) (e : List Char) :
    (xs ++ [e]).getLast! = e := by
  induction xs with
  | nil => rfl
  | cons x xs ih =>
    cases xs with
    | nil => rfl
    | cons y ys => simpa [List.getLast!] using ih

theorem check_d1_characters_ok_iff (l : List Char) :
    check_d1_characters l = .ok () ↔
      l.all (fun c => d1Characters.contains c) = true := by
  unfold check_d1_characters
  split_ifs with h <;> simp_all

theorem check_name_extension_ok_prop (name ext : List Char) (level : Nat) :
    check_name_extension name ext level = .ok () ↔
      (¬(name.length = 0 ∧ ext.length = 0) ∧
       ¬(level = 1 ∧ (name.length > 8 ∨ ext.length > 3)) ∧
       (name.map pyUpperChar).all (fun c => d1Characters.contains c) = true ∧
       (ext.map pyUpperChar).all (fun c => d1Characters.contains c) = true) := by
  unfold check_name_extension
  split_ifs with h1 h2
  · exact iff_of_false (fun h => by cases h) (fun hc => hc.1 h1)
  · exact iff_of_false (fun h => by cases h) (fun hc => hc.2.1 h2)
  · rcases hd1 : check_d1_characters (name.map pyUpperChar) with e | u
    · have hn := check_d1_characters_ok_iff (name.map pyUpperChar)
      rw [hd1] at hn
      have hna : ¬ (name.map pyUpperChar).all
          (fun c => d1Characters.contains c) = true := fun hh => by
        cases hn.mpr hh
      exact iff_of_false (fun h => by cases h)
        (fun hc => hna hc.2.2.1)
    · cases u
      rw [check_d1_characters_ok_iff]
      have hn := (check_d1_characters_ok_iff (name.map pyUpperChar)).mp hd1
      constructor
      · intro h4
        exact ⟨h1, h2, hn, h4⟩
      · rintro ⟨-, -, -, h4⟩
        exact h4

theorem spec_name_ext_ok_prop (name ext : List Char) (level : Nat) :
    spec_name_ext_ok name ext level = true ↔
      (¬(name.length = 0 ∧ ext.length = 0) ∧
       ¬(level = 1 ∧ (name.length > 8 ∨ ext.length > 3)) ∧
       (name.map pyUpperChar).all (fun c => d1Characters.contains c) = true ∧
       (ext.map pyUpperChar).all (fun c => d1Characters.contains c) = true) := by
  unfold spec_name_ext_ok
  simp only [Bool.and_eq_true, Bool.or_eq_true, Bool.not_eq_true',
    Bool.and_eq_false_iff, decide_eq_true_eq, decide_eq_false_iff_not,
    List.isEmpty_eq_true, List.isEmpty_eq_false, List.length_eq_zero]
  constructor
  · rintro ⟨⟨⟨hne, hlv⟩, h3⟩, h4⟩
    refine ⟨?_, ?_, h3, h4⟩
    · rintro ⟨he1, he2⟩
      rcases hne with hne | hne
      · exact hne he1
      · exact hne he2
    · rintro ⟨rfl, hlen⟩
      rcases hlv with hlv | ⟨h8, h3e⟩
      · exact hlv rfl
      · omega
  · rintro ⟨h1, h2, h3, h4⟩
    refine ⟨⟨⟨?_, ?_⟩, h3⟩, h4⟩
    · by_cases hne : name = []
      · right
        intro hee
        exact h1 ⟨hne, hee⟩
      · left
        exact hne
    · by_cases hl : level = 1
      · right
        constructor <;> by_contra hc <;> exact h2 ⟨hl, by omega⟩
      · exact Or.inl hl

theorem check_name_extension_ok_iff (name ext : List Char) (level : Nat) :
    check_name_extension name ext level = .ok () ↔
      spec_name_ext_ok name ext level = true :=
  (check_name_extension_ok_prop name ext level).trans
    (spec_name_ext_ok_prop name ext level).symm

theorem check_npe_iff (npe : List Char) (level : Nat) :
    check_name_extension
      (if (pySplit '.' npe).length = 1 then (pySplit '.' npe)[0]!
       else pyJoin '.' (pySplit '.' npe).dropLast)
      (if (pySplit '.' npe).length = 1 then ([] : List Char)
       else (pySplit '.' npe).getLast!)
      level = .ok () ↔ spec_npe_ok npe level = true := by
  cases hd : lastDotSplit npe with
  | none =>
    have hs := lastDotSplit_none_split npe hd
    rw [hs]
    simp only [spec_npe_ok, hd]
    simpa using check_name_extension_ok_iff npe [] level
  | some p =>
    obtain ⟨n, e⟩ := p
    have hs := lastDotSplit_some_split npe hd
    rw [hs]
    simp only [spec_npe_ok, hd]
    have hlen : ¬ (pySplit '.' n ++ [e]).length = 1 := by
      cases hpn : pySplit '.' n with
      | nil => exact absurd hpn (pySplit_ne_nil '.' n)
      | cons r rs => simp
    rw [if_neg hlen, if_neg hlen, List.dropLast_concat,
      getLast!_chunks_concat, pyJoin_pySplit]
    exact check_name_extension_ok_iff n e level

/-- Claim C6: `check_iso9660_filename` accepts a file identifier exactly
when it has at most one semicolon, a present version reads as a Python
integer between 1 and 32767, at least one of the name and the extension
(split at the last dot) is nonempty, the level-1 length bounds hold, and
at every interchange level the upper-cased name and extension consist
only of d1-characters. -/
theorem claim_C6_filename_validation (fullname : List Char) (level : Nat) :
    check_iso9660_filename fullname level = .ok () ↔
      spec_filename_ok fullname level = true := by
  cases hs : firstSemiSplit fullname with
  | none =>
    have hsp := firstSemiSplit_none_split fullname hs
    unfold check_iso9660_filename spec_filename_ok
    rw [hs, hsp]
    simpa using check_npe_iff fullname level
  | some p =>
    obtain ⟨npe, ver⟩ := p
    have hsp := firstSemiSplit_some_split fullname hs
    unfold check_iso9660_filename spec_filename_ok
    rw [hs, hsp]
    by_cases hv : ';' ∈ ver
    · have h2 := two_le_pySplit_length_of_mem ';' ver hv
      cases hpv : pySplit ';' ver with
      | nil => exact absurd hpv (pySplit_ne_nil ';' ver)
      | cons r rs =>
        rw [hpv] at h2
        cases rs with
        | nil => simp at h2
        | cons r2 rs2 => simp [hv]
    · have hpv := pySplit_singleton_of_not_mem ';' ver hv
      rw [hpv]
      cases hpi : pyInt ver with
      | none => simp [hv, hpi]
      | some v =>
        by_cases hvr : v < 1 ∨ v > 32767
        · have hbad : ¬(1 ≤ v ∧ v ≤ 32767) := by omega
          simp [hv, hpi, hvr, hbad]
        · have h1 : (1 ≤ v ∧ v ≤ 32767) := by omega
          simp only [List.length_cons, List.length_nil, Nat.reduceAdd,
            List.getElem!_cons_succ, List.getElem!_cons_zero, hpi,
            Nat.zero_add, reduceIte, hvr, if_false, ite_false,
            decide_eq_true (h1.1), decide_eq_true (h1.2),
            Bool.and_true, Bool.true_and, decide_eq_false hv, Bool.not_false]
          simpa using check_npe_iff npe level

/-- Claim C6 (counterexample to the claim as stated): the code accepts
"AB-" at interchange level 1 although a hyphen is not a d-character, and
rejects "A B" at interchange level 2 although the claim imposes no
character condition outside level 1. -/
theorem claim_C6_dcharacter_counterexample :
    (check_iso9660_filename ['A', 'B', '-'] 1 = .ok () ∧
      claim_filename_ok ['A', 'B', '-'] 1 = false) ∧
    (check_iso9660_filename ['A', ' ', 'B'] 2 =
        .error "not a valid ISO9660 filename (it contains invalid characters)" ∧
      claim_filename_ok ['A', ' ', 'B'] 2 = true) :=
  ⟨⟨by decide, by decide⟩, ⟨by decide, by decide⟩⟩

/-- Claim C1: after `new()` with default arguments (interchange level 1,
no Joliet, no Rock Ridge, no El Torito) and the reshuffle pass, the PVD
sits at extent 16, the single VDST at 17, the version descriptor at 18,
the little-endian path table at 19 occupying 2 extents, the big-endian
path table at 21 occupying 2 extents, and the root directory record at
23; `space_size` is 24 and the root's children are exactly "." and
"..". -/
theorem claim_C1_new_default_layout :
    (PyIso.new initialState 1 false false).2 = none ∧
    PrimaryVolumeDescriptor.extent_location = 16 ∧
    newDefaultState.num_vdsts = 1 ∧
    newDefaultState.last_reshuffle.map ReshuffleResult.vdst_extents
      = some [17] ∧
    newDefaultState.last_reshuffle.map ReshuffleResult.version_extent
      = some 18 ∧
    newDefaultState.last_reshuffle.map ReshuffleResult.pvd_ptr_le
      = some 19 ∧
    newDefaultState.pvd.path_table_num_extents = 2 ∧
    newDefaultState.last_reshuffle.map ReshuffleResult.pvd_ptr_be
      = some 21 ∧
    newDefaultState.last_reshuffle.map ReshuffleResult.pvd_dir_extents
      = some [23] ∧
    newDefaultState.pvd.space_size = 24 ∧
    newDefaultState.pvd.root.children.map DirRecord.file_ident
      = [dotIdent, dotdotIdent] := by
  decide

end PyIso
